import Mathlib

/-!
Verification of the argparser repository: a shallow embedding of
`src/hash_table.c`, `src/dynamic_array.c` and `src/argparser.c`
(with the `string_builder.c` / `string_slice.c` collaborators), together
with theorems settling the frozen claims about the specification.

Modelling conventions:
* C machine integers are modelled as `Nat` / `Int`; the 32-bit overflow in
  the FNV-1a hash is an explicit `% 2 ^ 32`.
* A `hash_table_entry` is a three-state `slot`: the C encodes empty as
  `key == NULL && value == NULL`, a tombstone as `key == NULL && value ==
  (void *)1`, and an occupied slot by a non-NULL key.
* Functions whose C originals can diverge (the `find_entry` probe loop on a
  table with no empty slot) or hit undefined behaviour (NULL dereference)
  return `Option`; `none` marks those runs.
* The NULL-pointer guards on the first argument (`STATUS_IS_NULL` paths) are
  outside the model: every modelled call receives a valid object.
-/

/-! ### Status codes (utils.h)

The `status_codes` enumeration of `utils.h` has exactly six members; there
is no `AlreadyExists` member and no member with value 6. -/

def STATUS_SUCCESS : Nat := 0

def STATUS_FAILURE : Nat := 1

def STATUS_MEMORY_FAILURE : Nat := 2

def STATUS_IS_EMPTY : Nat := 3

def STATUS_OUT_OF_BOUNDS : Nat := 4

def STATUS_IS_NULL : Nat := 5

/-- Number of values in the `status_codes` enumeration of `utils.h`
(`STATUS_SUCCESS` .. `STATUS_IS_NULL`, i.e. 0..5). -/
def status_codes_card : Nat := 6

/-! ### hash_table.c -/

/-- One `hash_table_entry`.  In the C source: empty is `(NULL, NULL)`,
a tombstone is `(NULL, (void *)1)`, an occupied slot has `key != NULL`. -/
inductive slot (α : Type) where
  | empty : slot α
  | tombstone : slot α
  | occupied (key : String) (value : α) : slot α
deriving DecidableEq

/-- `struct hash_table`: entry array, logical size, capacity.
`entries = []` models the initial `NULL` entry pointer. -/
structure hash_table (α : Type) where
  entries : List (slot α)
  size : Nat
  capacity : Nat
deriving DecidableEq

def HASH_TABLE_INITIAL_SIZE : Nat := 8

/-- One step of FNV-1a: `hash ^= byte; hash *= 16777619;` on `unsigned int`. -/
def fnv1a_step (h b : Nat) : Nat := ((h ^^^ b) * 16777619) % 2 ^ 32

/-- The static `hash` function: FNV-1a over the bytes of the key.  Keys in
this program are ASCII, so the byte sequence is the character codes. -/
def fnv1a (key : String) : Nat :=
  key.data.foldl (fun h c => fnv1a_step h c.toNat) 2166136261

/-- The probe-loop body of `find_entry`, recursing over an explicit list of
slot indices still to visit (the C `while (1)` visits `index`,
`(index+1) & (capacity-1)`, ...).  `tomb` remembers the first tombstone.
`none` models the C loop running forever (no empty slot, no match). -/
def find_entry_list (entries : List (slot α)) (key : String) :
    List Nat → Option Nat → Option Nat
  | [], _ => none
  | p :: ps, tomb =>
    match entries.get? p with
    | some slot.empty => some (tomb.getD p)
    | some slot.tombstone => find_entry_list entries key ps (some (tomb.getD p))
    | some (slot.occupied k _) =>
      if k = key then some p else find_entry_list entries key ps tomb
    | none => none

/-- The index sequence probed by `find_entry` starting at `index`, for
`fuel` steps: the C computes `index = (index + 1) & (capacity - 1)`. -/
def probe_from (capacity : Nat) (index : Nat) : Nat → List Nat
  | 0 => []
  | fuel + 1 => index :: probe_from capacity ((index + 1) &&& (capacity - 1)) fuel

/-- `find_entry`: linear probing from `hash(key) & (capacity - 1)`,
skipping tombstones (first one remembered as the insertion point),
stopping at the first true match or first empty entry.  The probe sequence
revisits every slot after `capacity` steps, so `capacity` steps of fuel are
exhaustive; `none` models the C loop never terminating. -/
def find_entry (entries : List (slot α)) (capacity : Nat) (key : String) :
    Option Nat :=
  find_entry_list entries key
    (probe_from capacity (fnv1a key &&& (capacity - 1)) capacity) none

/-- Keys of the occupied slots, in slot order. -/
def slots_keys (entries : List (slot α)) : List String :=
  entries.filterMap fun e =>
    match e with
    | slot.occupied k _ => some k
    | _ => none

/-- Key/value pairs of the occupied slots, in slot order. -/
def slots_pairs (entries : List (slot α)) : List (String × α) :=
  entries.filterMap fun e =>
    match e with
    | slot.occupied k v => some (k, v)
    | _ => none

/-- Number of occupied slots. -/
def count_occupied (entries : List (slot α)) : Nat :=
  (slots_pairs entries).length

/-- No slot is a tombstone. -/
def no_tombstone (entries : List (slot α)) : Prop :=
  ∀ i : Nat, entries.get? i ≠ some slot.tombstone

instance (entries : List (slot α)) [DecidableEq α] :
    Decidable (no_tombstone entries) := by
  have h : no_tombstone entries ↔
      ∀ e ∈ entries, e ≠ slot.tombstone := by
    constructor
    · intro h e he hc
      subst hc
      obtain ⟨i, hi⟩ := List.get_of_mem he
      exact h i (by rw [List.get?_eq_get i.isLt]; exact congrArg some hi)
    · intro h i hi
      have := List.get?_mem hi
      exact (h _ this) rfl
  exact decidable_of_iff _ h.symm

/-- `resize`: rehash every occupied slot into a fresh all-empty array of the
new capacity (tombstones are skipped), resetting `size` and counting the
moved entries.  The inner `none` branch marks the unreachable case in which
the C probe loop would never terminate. -/
def resize_step (capacity : Nat) (acc : List (slot α) × Nat) (e : slot α) :
    List (slot α) × Nat :=
  match e with
  | slot.occupied k v =>
    match find_entry acc.1 capacity k with
    | some dest => (acc.1.set dest (slot.occupied k v), acc.2 + 1)
    | none => acc
  | _ => acc

def resize (ht : hash_table α) (capacity : Nat) : hash_table α :=
  let init : List (slot α) × Nat := (List.replicate capacity slot.empty, 0)
  let out := ht.entries.foldl (resize_step capacity) init
  { entries := out.1, size := out.2, capacity := capacity }

/-- `hash_table_create`: size 0, capacity 8, no entry array yet. -/
def hash_table_create (α : Type) : hash_table α :=
  { entries := [], size := 0, capacity := HASH_TABLE_INITIAL_SIZE }

/-- The load-factor test `ht->size + 1 >= ht->capacity * 0.75`: with the
capacity divisible by 4 the double multiplication is exact, and the
comparison is equivalent to `4 * (size + 1) >= 3 * capacity`. -/
def load_reached (size capacity : Nat) : Bool :=
  4 * (size + 1) ≥ 3 * capacity

/-- `hash_table_insert`.  When `size == 0` the C allocates a fresh all-empty
entry array (discarding any previous one).  It then resizes when the load
factor is reached, probes, and fails with `STATUS_FAILURE` when the key is
already present.  A fresh key written over a tombstone does NOT increment
`size` (`if (entry->value != (void *)1) ht->size++`). -/
def hash_table_insert (ht : hash_table α) (key : String) (value : α) :
    Option (Nat × hash_table α) :=
  let ht :=
    if ht.size = 0 then
      { ht with entries := List.replicate ht.capacity slot.empty }
    else ht
  let ht :=
    if load_reached ht.size ht.capacity then resize ht (ht.capacity * 2)
    else ht
  match find_entry ht.entries ht.capacity key with
  | none => none
  | some idx =>
    match ht.entries.get? idx with
    | none => none
    | some (slot.occupied _ _) => some (STATUS_FAILURE, ht)
    | some slot.empty =>
      some (STATUS_SUCCESS,
        { ht with entries := ht.entries.set idx (slot.occupied key value),
                  size := ht.size + 1 })
    | some slot.tombstone =>
      some (STATUS_SUCCESS,
        { ht with entries := ht.entries.set idx (slot.occupied key value) })

/-- `hash_table_search`: `STATUS_IS_EMPTY` when `size == 0`,
`STATUS_FAILURE` on an empty key or a slot with `key == NULL`, else the
stored value. -/
def hash_table_search (ht : hash_table α) (key : String) :
    Option (Nat × Option α) :=
  if ht.size = 0 then some (STATUS_IS_EMPTY, none)
  else if key.length = 0 then some (STATUS_FAILURE, none)
  else
    match find_entry ht.entries ht.capacity key with
    | none => none
    | some idx =>
      match ht.entries.get? idx with
      | some (slot.occupied _ v) => some (STATUS_SUCCESS, some v)
      | some _ => some (STATUS_FAILURE, none)
      | none => none

/-- `hash_table_delete`: mark the found slot as a tombstone
(`entry->value = (void *)1`) and decrement `size`. -/
def hash_table_delete (ht : hash_table α) (key : String) :
    Option (Nat × hash_table α) :=
  if ht.size = 0 then some (STATUS_IS_EMPTY, ht)
  else
    match find_entry ht.entries ht.capacity key with
    | none => none
    | some idx =>
      match ht.entries.get? idx with
      | some (slot.occupied _ _) =>
        some (STATUS_SUCCESS,
          { ht with entries := ht.entries.set idx slot.tombstone,
                    size := ht.size - 1 })
      | some _ => some (STATUS_FAILURE, ht)
      | none => none

/-! ### dynamic_array.c

The backing storage `void **items` is modelled at the byte level (one `Nat`
per byte), because `dynamic_array_add` / `dynamic_array_find_ref` address it
with byte offsets computed from `data_size` while `dynamic_array_find`
addresses it with pointer arithmetic on the `void **` field (8 bytes per
index on LP64).  Elements are byte lists of length `data_size`. -/

/-- `sizeof(void *)` on the LP64 targets this code is built for. -/
def PTR_SIZE : Nat := 8

def DYNAMIC_ARRAY_INTIAL_CAPACITY : Nat := 8

structure dynamic_array where
  items : List Nat
  capacity : Nat
  size : Nat
  data_size : Nat
deriving DecidableEq

/-- `memcpy(dst + off, src, src.length)` on byte lists. -/
def write_bytes (dst : List Nat) (off : Nat) (src : List Nat) : List Nat :=
  dst.take off ++ src ++ dst.drop (off + src.length)

/-- Read `len` bytes at byte offset `off`. -/
def read_bytes (src : List Nat) (off len : Nat) : List Nat :=
  (src.drop off).take len

def dynamic_array_create (data_size : Nat) : dynamic_array :=
  { items := [], capacity := DYNAMIC_ARRAY_INTIAL_CAPACITY, size := 0,
    data_size := data_size }

/-- `dynamic_array_resize`: capacity doubles (`capacity <<= 1`), the old
bytes are preserved by `realloc`.  The C zeroes only `capacity -
old_capacity` BYTES of the new region with `memset`; the model fills the
whole new region with zero bytes (the rest is uninitialized in C and never
read by the verified paths). -/
def dynamic_array_resize (a : dynamic_array) : dynamic_array :=
  let new_capacity := a.capacity * 2
  { a with capacity := new_capacity,
           items := a.items ++
             List.replicate (new_capacity * a.data_size - a.items.length) 0 }

/-- `dynamic_array_add`: on the first add, `calloc` a zeroed backing array of
`capacity * data_size` bytes; double when full; then
`memcpy((void *)array->items + array->data_size * array->size++, item,
array->data_size)` — a byte offset scaled by `data_size`. -/
def dynamic_array_add (a : dynamic_array) (item : List Nat) : dynamic_array :=
  let a :=
    if a.size = 0 then
      { a with items := List.replicate (a.capacity * a.data_size) 0 }
    else a
  let a := if a.size = a.capacity then dynamic_array_resize a else a
  { a with items := write_bytes a.items (a.data_size * a.size) item,
           size := a.size + 1 }

/-- `dynamic_array_find`: bounds-checked, then
`memcpy(*item, array->items + index, array->data_size)`.  The pointer
arithmetic `array->items + index` is on the `void **` field, so it advances
by `index * sizeof(void *)` bytes — NOT by `index * data_size`. -/
def dynamic_array_find (a : dynamic_array) (index : Nat) :
    Nat × Option (List Nat) :=
  if a.size = 0 then (STATUS_IS_EMPTY, none)
  else if a.size ≤ index then (STATUS_OUT_OF_BOUNDS, none)
  else (STATUS_SUCCESS, some (read_bytes a.items (index * PTR_SIZE) a.data_size))

/-- `dynamic_array_find_ref`: bounds-checked, then
`*item = (void *)array->items + index * array->data_size` — a byte offset
scaled by `data_size`, consistent with `dynamic_array_add`. -/
def dynamic_array_find_ref (a : dynamic_array) (index : Nat) :
    Nat × Option (List Nat) :=
  if a.size = 0 then (STATUS_IS_EMPTY, none)
  else if a.size ≤ index then (STATUS_OUT_OF_BOUNDS, none)
  else (STATUS_SUCCESS, some (read_bytes a.items (index * a.data_size) a.data_size))

/-! ### argparser.c: data model

The C stores `argparser_argument` records behind pointers owned by the
`arguments` hash table; setters mutate the record in place through the
pointer obtained from a lookup.  The model keeps the records in a heap list
`specs`, and stores their indices (the pointers) as the hash-table values,
so in-place mutation is an update of `specs` that leaves the table alone. -/

/-- `argparser_arg_action` (header: `AP_ARG_ACTION_*`). -/
inductive argparser_arg_action where
  | store
  | store_const
  | store_true
  | store_false
  | store_append
  | store_append_const
  | store_extend
  | store_count
  | store_version
deriving DecidableEq

/-- `argparser_arg_type` (header: `AP_ARG_TYPE_FLOAT`, `AP_ARG_TYPE_INT`,
`AP_ARG_TYPE_STRING`, `AP_ARG_TYPE_BOOL`). -/
inductive argparser_arg_type where
  | float
  | int
  | string
  | bool
deriving DecidableEq

/-- The tagged view of the untyped `void *value` binding: the C stores a
`long` for Int, a `double` for Float (abstracted here to the accepted
numeral text), or the value string for String; `none` is `NULL`. -/
inductive bound_value where
  | int_value (n : Int)
  | float_value (text : List Char)
  | string_value (s : String)
deriving DecidableEq

/-- `struct argparser_argument`. -/
structure argparser_argument where
  action : argparser_arg_action
  choices : Option String
  const_value : Option String
  default_value : Option String
  dest : Option String
  help : Option String
  long_name : Option String
  metavar : Option String
  nargs : Option String
  short_name : Option String
  value : Option bound_value
  deprecated : Bool
  required : Bool
  type : argparser_arg_type
deriving DecidableEq

/-- `struct argparser`.  String builders are char lists; `none` models the
fields that stay `NULL` until first use.  The `name` / `usage` /
`description` / `epilogue` / `prefix_chars` / `add_help` / `allow_abbrev`
fields are never read by the verified operations and are omitted. -/
structure argparser where
  arguments : hash_table Nat
  specs : List argparser_argument
  positional_args : List Char
  optional_args : List Char
  req_opt_args : Option (List Char)
  unrecognized_args : Option (List Char)
  errors : Option (List String)
  pos_args_size : Nat
  req_opt_args_size : Nat
deriving DecidableEq

/-! ### character helpers -/

/-- The single-quote character, kept out of string literals. -/
def squote : Char := Char.ofNat 39

/-- `args_str[i]` on a C string: past the end it reads the NUL terminator. -/
def cAt (s : List Char) (i : Nat) : Char := (s.get? i).getD (Char.ofNat 0)

/-- `isalpha` in the C locale. -/
def c_isalpha (c : Char) : Bool :=
  ('A' ≤ c && c ≤ 'Z') || ('a' ≤ c && c ≤ 'z')

/-- `isspace` in the C locale. -/
def c_isspace (c : Char) : Bool :=
  c = ' ' || c = '\t' || c = '\n' || c = Char.ofNat 11 || c = Char.ofNat 12 ||
    c = '\r'

def is_digit (c : Char) : Bool := '0' ≤ c && c ≤ '9'

def digit_val (c : Char) : Nat := c.toNat - '0'.toNat

/-- `snprintf(buf, 50, ...)`: at most 49 characters are kept. -/
def snprintf50 (l : List Char) : String := String.mk (l.take 49)

/-- `strncmp(l, "--", 2) == 0`. -/
def starts_dashdash (l : String) : Bool := l.data.take 2 = ['-', '-']

/-- The short-name shape test of `determine_argument`:
`strlen == 2 && short_name[0] == '-' && isalpha(short_name[1])`. -/
def valid_short_name (s : String) : Bool :=
  s.length = 2 && s.data.head? = some '-' && Option.any c_isalpha (s.data.get? 1)

/-! ### determine_argument -/

/-- `determine_argument`: classify a (short, long) name pair.
Returns 1 (positional), 2 (optional keyed by short), 3 (optional keyed by
long), -1 (both NULL), -2 (bad short shape), -4 (single-dash long without a
short), -5 (mixing positional and optional), -6 (the uncovered case: a
valid short with a single-dash long). -/
def determine_argument (short_name long_name : Option String) : Int :=
  match short_name, long_name with
  | none, none => -1
  | none, some l =>
    if ¬ starts_dashdash l ∧ l.data.head? ≠ some '-' then 1
    else if starts_dashdash l then 3
    else -4
  | some s, lopt =>
    if ¬ valid_short_name s then -2
    else
      match lopt with
      | none => 2
      | some l =>
        if starts_dashdash l then 3
        else if l.data.head? ≠ some '-' then -5
        else -6

/-! ### registration -/

/-- `arg_create`: allocate a fresh record with the default configuration
(action Store, type String, everything else absent) and return its id. -/
def arg_create (p : argparser) (short_name long_name : Option String) :
    Nat × argparser :=
  let a : argparser_argument :=
    { action := argparser_arg_action.store
      choices := none
      const_value := none
      default_value := none
      dest := none
      help := none
      long_name := long_name
      metavar := none
      nargs := none
      short_name := short_name
      value := none
      deprecated := false
      required := false
      type := argparser_arg_type.string }
  (p.specs.length, { p with specs := p.specs ++ [a] })

/-- Mutate the record behind pointer `id` in place. -/
def set_spec (p : argparser) (id : Nat)
    (f : argparser_argument → argparser_argument) : argparser :=
  match p.specs.get? id with
  | some a => { p with specs := p.specs.set id (f a) }
  | none => p

/-- `argparser_create` (allocation failures outside the model). -/
def argparser_create : argparser :=
  { arguments := hash_table_create Nat
    specs := []
    positional_args := []
    optional_args := []
    req_opt_args := none
    unrecognized_args := none
    errors := none
    pos_args_size := 0
    req_opt_args_size := 0 }

/-- `argparser_add_argument`: classify, reject duplicates with return value
6, record the name in the positional or optional ledger, allocate the spec
record and insert it under its single table key (the long name when both
names are present). -/
def argparser_add_argument (p : argparser) (short_name long_name : Option String) :
    Option (Int × argparser) := do
  let kind := determine_argument short_name long_name
  if kind = 1 then do
    let l := long_name.getD ""
    let (sr, _) ← hash_table_search p.arguments l
    if sr = 0 then pure (6, p)
    else do
      let p := { p with positional_args := p.positional_args ++ l.data ++ [' '] }
      let (id, p) := arg_create p none long_name
      let (_, args2) ← hash_table_insert p.arguments l id
      pure ((STATUS_SUCCESS : Nat),
        { p with arguments := args2, pos_args_size := p.pos_args_size + 1 })
  else if kind = 2 then do
    let s := short_name.getD ""
    let (sr, _) ← hash_table_search p.arguments s
    if sr = 0 then pure (6, p)
    else do
      let p := { p with optional_args := p.optional_args ++ s.data ++ [','] ++
          (match long_name with
           | some l => l.data
           | none => ['-', '-', '0']) ++ [' '] }
      let (id, p) := arg_create p short_name long_name
      let (_, args2) ← hash_table_insert p.arguments s id
      pure ((STATUS_SUCCESS : Nat), { p with arguments := args2 })
  else if kind = 3 then do
    let l := long_name.getD ""
    let (sr, _) ← hash_table_search p.arguments l
    if sr = 0 then pure (6, p)
    else do
      let p := { p with optional_args := p.optional_args ++
          (match short_name with
           | some s => s.data ++ [',']
           | none => ['-', '0', ',']) ++ l.data ++ [' '] }
      let (id, p) := arg_create p short_name long_name
      let (_, args2) ← hash_table_insert p.arguments l id
      pure ((STATUS_SUCCESS : Nat), { p with arguments := args2 })
  else pure ((STATUS_FAILURE : Nat), p)

/-! ### setters (GET_ARG_FROM_PARSER pattern) -/

/-- `argparser_add_action_to_arg`: resolve the spec by name or flag and set
its action (the switch maps every enumeration value to itself). -/
def argparser_add_action_to_arg (p : argparser) (name_or_flag : String)
    (action : argparser_arg_action) : Option (Nat × argparser) := do
  if name_or_flag.length = 0 then pure (6, p)
  else do
    let (r, v) ← hash_table_search p.arguments name_or_flag
    if r = 1 then pure (STATUS_FAILURE, p)
    else if r = 3 then pure (STATUS_IS_EMPTY, p)
    else
      match v with
      | some id =>
        pure (STATUS_SUCCESS, set_spec p id (fun a => { a with action := action }))
      | none => none

/-- `argparser_add_type_to_arg`: the switch handles only Float, Int and
String; the Bool member of the type enumeration falls to the default case
and is rejected with `STATUS_FAILURE` without mutating the spec. -/
def argparser_add_type_to_arg (p : argparser) (name_or_flag : String)
    (type : argparser_arg_type) : Option (Nat × argparser) := do
  if name_or_flag.length = 0 then pure (6, p)
  else do
    let (r, v) ← hash_table_search p.arguments name_or_flag
    if r = 1 then pure (STATUS_FAILURE, p)
    else if r = 3 then pure (STATUS_IS_EMPTY, p)
    else
      match v with
      | some id =>
        match type with
        | argparser_arg_type.bool => pure (STATUS_FAILURE, p)
        | t => pure (STATUS_SUCCESS, set_spec p id (fun a => { a with type := t }))
      | none => none

/-- `argparser_add_required_to_arg`: append `"flag,name "` to the
required-optional ledger (`"-0"` / `"--0"` stand for an absent alias; the
`snprintf` buffer is sized exactly, no truncation) and set the flag. -/
def argparser_add_required_to_arg (p : argparser) (name_or_flag : String)
    (required : Bool) : Option (Nat × argparser) := do
  if name_or_flag.length = 0 then pure (6, p)
  else do
    let (r, v) ← hash_table_search p.arguments name_or_flag
    if r = 1 then pure (STATUS_FAILURE, p)
    else if r = 3 then pure (STATUS_IS_EMPTY, p)
    else
      match v with
      | some id =>
        match p.specs.get? id with
        | none => none
        | some a =>
          let flag := match a.short_name with
            | some s => s.data
            | none => ['-', '0']
          let name := match a.long_name with
            | some l => l.data
            | none => ['-', '-', '0']
          let ledger := (p.req_opt_args.getD []) ++ flag ++ [','] ++ name ++ [' ']
          let p := { p with req_opt_args := some ledger,
                            req_opt_args_size := p.req_opt_args_size + 1 }
          pure (STATUS_SUCCESS,
            set_spec p id (fun a => { a with required := required }))
      | none => none

/-! ### diagnostics accumulation -/

/-- `add_error_to_argparser`: build
`"argument " short ["/"] long ": " message` and push it onto the error
array (created on first use). -/
def add_error_to_argparser (p : argparser) (short_name long_name : Option String)
    (error_message : String) : argparser :=
  let message := "argument ".data ++
    (match short_name with | some s => s.data | none => []) ++
    (if short_name ≠ none ∧ long_name ≠ none then ['/'] else []) ++
    (match long_name with | some l => l.data | none => []) ++
    ": ".data ++ error_message.data
  { p with errors := some ((p.errors.getD []) ++ [String.mk message]) }

/-- Append to the unrecognized-argument builder (created on first use). -/
def append_unrecognized (p : argparser) (s : List Char) : argparser :=
  { p with unrecognized_args := some ((p.unrecognized_args.getD []) ++ s) }

/-! ### numeric conversion (strtol / strtod) -/

def LONG_MAX : Int := 2 ^ 63 - 1

def LONG_MIN : Int := -(2 ^ 63)

/-- `strtol(str, &endptr, 10)` on an LP64 target: returns (value, number of
characters consumed up to `endptr`, ERANGE flag).  `consumed = 0` models
`endptr == str` (no conversion). -/
def strtol_model (s : List Char) : Int × Nat × Bool :=
  let ws := s.takeWhile c_isspace
  let r1 := s.drop ws.length
  let signLen := if r1.head? = some '-' || r1.head? = some '+' then 1 else 0
  let neg := r1.head? = some '-'
  let digits := (r1.drop signLen).takeWhile is_digit
  if digits.isEmpty then (0, 0, false)
  else
    let mag : Nat := digits.foldl (fun acc c => acc * 10 + digit_val c) 0
    let v : Int := if neg then -(mag : Int) else (mag : Int)
    let consumed := ws.length + signLen + digits.length
    if v < LONG_MIN then (LONG_MIN, consumed, true)
    else if LONG_MAX < v then (LONG_MAX, consumed, true)
    else (v, consumed, false)

/-- `strtod(str, &endptr)`: returns (number of characters consumed, ERANGE
flag).  Only the decimal grammar (whitespace, sign, digits with an
optional point, optional exponent) is modelled: the hexadecimal and
infinity / nan forms the C library also accepts are not, and the range
flag uses the decimal magnitude (overflow at `10 ^ 309`, underflow below
`10 ^ (-324)`) rather than the exact `DBL_MAX` rounding boundary.  The
model therefore under-approximates `strtod`: it fixes only the control
flow of the Float branch of `validate_argument_type`, and no theorem
relies on which branch this function selects for a nonempty run. -/
def strtod_model (s : List Char) : Nat × Bool :=
  let ws := s.takeWhile c_isspace
  let r1 := s.drop ws.length
  let signLen := if r1.head? = some '-' || r1.head? = some '+' then 1 else 0
  let r2 := r1.drop signLen
  let d1 := r2.takeWhile is_digit
  let r3 := r2.drop d1.length
  let fracPresent := r3.head? = some '.'
  let d2 := if fracPresent then (r3.drop 1).takeWhile is_digit else []
  let r4 := if fracPresent then r3.drop (1 + d2.length) else r3
  if d1.isEmpty && d2.isEmpty then (0, false)
  else
    let hasExpChar := r4.head? = some 'e' || r4.head? = some 'E'
    let re := r4.drop 1
    let eneg := re.head? = some '-'
    let esignLen := if re.head? = some '-' || re.head? = some '+' then 1 else 0
    let ed := if hasExpChar then (re.drop esignLen).takeWhile is_digit else []
    let expLen := if hasExpChar && !ed.isEmpty then 1 + esignLen + ed.length else 0
    let mantLen := d1.length + (if fracPresent then 1 + d2.length else 0)
    let consumed := ws.length + signLen + mantLen + expLen
    let eAbs : Nat := ed.foldl (fun acc c => acc * 10 + digit_val c) 0
    let eAbsC : Int := if 100000 < eAbs then 100000 else (eAbs : Int)
    let expVal : Int := if expLen = 0 then 0 else if eneg then -eAbsC else eAbsC
    let mant := d1 ++ d2
    let z := (mant.takeWhile (fun c => c = '0')).length
    let magExp : Int := (d1.length : Int) + expVal - z
    (consumed, decide (z < mant.length) && decide (310 ≤ magExp ∨ magExp ≤ -324))

/-! ### validate_argument_type / validate_argument -/

/-- `validate_argument_type`: free the previous binding, then convert
`arg_value` according to the declared type.  Observable effects: on an Int
or Float conversion failure a diagnostic is pushed and the binding is left
as it was (the C keeps the dangling pointer); on success the new value is
bound; String passes the text through (binding `NULL` when the value is
`NULL`); the Bool member has no case in the switch, so nothing is bound and
no diagnostic is recorded.  `none` models `strtod` / `strtol` on a NULL
pointer. -/
def validate_argument_type (p : argparser) (id : Nat) (arg_value : Option String) :
    Option (Nat × argparser) :=
  match p.specs.get? id with
  | none => none
  | some arg =>
    match arg.type with
    | argparser_arg_type.float =>
      match arg_value with
      | none => none
      | some s =>
        let (consumed, erange) := strtod_model s.data
        if erange then
          some (1, add_error_to_argparser p arg.short_name arg.long_name
            "numerical result is out of range")
        else if consumed = 0 ∨ consumed < s.length then
          some (2, add_error_to_argparser p arg.short_name arg.long_name
            (snprintf50 ("invalid float value: ".data ++ [squote] ++ s.data ++
              [squote])))
        else
          some (STATUS_SUCCESS, set_spec p id
            (fun a => { a with value := some (bound_value.float_value s.data) }))
    | argparser_arg_type.int =>
      match arg_value with
      | none => none
      | some s =>
        let (v, consumed, erange) := strtol_model s.data
        if erange then
          some (1, add_error_to_argparser p arg.short_name arg.long_name
            "numerical result is out of range")
        else if consumed = 0 ∨ consumed < s.length then
          some (2, add_error_to_argparser p arg.short_name arg.long_name
            (snprintf50 ("invalid int value: ".data ++ [squote] ++ s.data ++
              [squote])))
        else
          some (STATUS_SUCCESS, set_spec p id
            (fun a => { a with value := some (bound_value.int_value v) }))
    | argparser_arg_type.string =>
      some (STATUS_SUCCESS, set_spec p id
        (fun a => { a with value := arg_value.map bound_value.string_value }))
    | argparser_arg_type.bool => some (STATUS_SUCCESS, p)

/-- `validate_argument`: for action Store, skip at most one separating
space, take the run of non-space characters as the value text, record
`"expected one argument"` when the cursor is at the end of the input with
an empty run, then hand the text (NULL for an empty run) to
`validate_argument_type`, whose result is ignored.  Every other action
falls through its switch case and returns the cursor unchanged.  Returns
the new cursor. -/
def validate_argument (p : argparser) (id : Nat) (args_str : List Char)
    (index : Nat) : Option (Nat × argparser) :=
  match p.specs.get? id with
  | none => none
  | some arg =>
    match arg.action with
    | argparser_arg_action.store =>
      let index := if cAt args_str index = ' ' then index + 1 else index
      let run := (args_str.drop index).takeWhile (fun c => c ≠ ' ')
      let p :=
        if args_str.length ≤ index then
          add_error_to_argparser p arg.short_name arg.long_name
            "expected one argument"
        else p
      let arg_value : Option String :=
        if run.isEmpty then none else some (String.mk run)
      match validate_argument_type p id arg_value with
      | none => none
      | some (_, p) => some (index + run.length, p)
    | _ => some (index, p)

/-! ### token scanning helpers -/

/-- `get_arg_name`: collect characters from `index` until a space.  Hitting
the end of the string instead returns `STATUS_OUT_OF_BOUNDS` with the name
collected so far.  An empty collection leaves the name NULL (`none`); at a
space that makes the result 1 (the `result = to_string(...) != 0`
assignment collapses the status to a boolean). -/
def get_arg_name (args_str : List Char) (index : Nat) : Nat × Option String :=
  let run := (args_str.drop index).takeWhile (fun c => c ≠ ' ')
  if args_str.length ≤ index + run.length then
    (STATUS_OUT_OF_BOUNDS, if run.isEmpty then none else some (String.mk run))
  else
    (if run.isEmpty then 1 else STATUS_SUCCESS,
     if run.isEmpty then none else some (String.mk run))

/-- `is_valid_arg_flag`: a flag character is valid when the `flags` table
maps `"-c"` to a real long name that is a key of the argument table, or
(placeholder value `"--0"`, or no `flags` entry) when `"-c"` itself is a
key of the argument table. -/
def is_valid_arg_flag (p : argparser) (flags : hash_table String) (flag : Char) :
    Option Nat := do
  let flag_str := String.mk ['-', flag]
  let res ← hash_table_search flags flag_str
  match res with
  | (0, some long_name) =>
    if ¬ long_name.data.take 3 = ['-', '-', '0'] then do
      let (r2, _) ← hash_table_search p.arguments long_name
      if r2 = 0 then pure STATUS_SUCCESS else pure STATUS_FAILURE
    else do
      let (r2, _) ← hash_table_search p.arguments flag_str
      if r2 = 0 then pure STATUS_SUCCESS else pure STATUS_FAILURE
  | _ => do
    let (r2, _) ← hash_table_search p.arguments flag_str
    if r2 = 0 then pure STATUS_SUCCESS else pure STATUS_FAILURE

/-- `is_valid_arg_name`: the name is a key of the argument table. -/
def is_valid_arg_name (p : argparser) (name : String) : Option Nat := do
  let (r, _) ← hash_table_search p.arguments name
  pure (if r = 0 then STATUS_SUCCESS else STATUS_FAILURE)

/-- The two optional-argument kinds passed to `parse_optional_argument`. -/
inductive arg_kind where
  | opt_flag
  | opt_name
deriving DecidableEq

/-- `parse_positional_argument`: resolve the positional name registered at
position `args_num - 1`; when present, look its spec up and consume the
token as its value; otherwise record the token as unrecognized.  Returns
the new cursor.  `none` models the NULL dereferences the C performs when a
lookup unexpectedly fails. -/
def parse_positional_argument (p : argparser) (args_str : List Char)
    (index : Nat) (args_num : Nat) (pos_args : List String) :
    Option (Nat × argparser) := do
  match pos_args.get? (args_num - 1) with
  | some name => do
    let res ← hash_table_search p.arguments name
    match res with
    | (_, some id) => do
      let (idx2, p) ← validate_argument p id args_str index
      pure (idx2, p)
    | (_, none) => none
  | none =>
    match get_arg_name args_str index with
    | (_, none) => none
    | (_, some name) =>
      let index := index + name.length
      pure (index, append_unrecognized p (name.data ++ [' ']))

/-- `parse_optional_argument`.  For a flag token: the in-function ambiguity
guard (both the current character and the next one are valid flags), then
resolution through the `flags` table (a `"--0"` value means the flag itself
is the argument key), then value consumption; an unknown flag is recorded
as unrecognized and the cursor advances by one.  For a long-name token:
read the name (`"expected one argument"` when the input ends at the name),
resolve it directly, consume the value, or record the token as
unrecognized. -/
def parse_optional_argument (p : argparser) (args_str : List Char)
    (kind : arg_kind) (index : Nat) (flags : hash_table String)
    (args_str_length : Nat) : Option (Nat × argparser) := do
  match kind with
  | arg_kind.opt_flag => do
    let concat_str := String.mk ['-', cAt args_str index]
    let guard_hit ←
      if index + 1 < args_str_length then do
        let v1 ← is_valid_arg_flag p flags (cAt args_str index)
        if v1 = 0 then do
          let v2 ← is_valid_arg_flag p flags (cAt args_str (index + 1))
          pure (v2 == 0)
        else pure false
      else pure false
    if guard_hit then
      pure (index,
        add_error_to_argparser p none (some concat_str) "expected one argument")
    else do
      let res ← hash_table_search flags concat_str
      match res with
      | (0, some value) =>
        if ¬ value.data.take 3 = ['-', '-', '0'] then do
          let res2 ← hash_table_search p.arguments value
          match res2 with
          | (_, some id) => do
            let (idx2, p) ← validate_argument p id args_str (index + 1)
            pure (idx2, p)
          | (_, none) => none
        else do
          let res2 ← hash_table_search p.arguments concat_str
          match res2 with
          | (_, some id) => do
            let (idx2, p) ← validate_argument p id args_str (index + 1)
            pure (idx2, p)
          | (_, none) => none
      | _ =>
        pure (index + 1,
          append_unrecognized p ['-', cAt args_str index, ' '])
  | arg_kind.opt_name => do
    match get_arg_name args_str index with
    | (4, name) =>
      pure (args_str.length,
        add_error_to_argparser p name none "expected one argument")
    | (_, none) => none
    | (_, some name) => do
      let name_length := name.length
      let res ← hash_table_search p.arguments name
      match res with
      | (0, some id) => do
        let (idx2, p) ← validate_argument p id args_str (index + name_length)
        pure (idx2, p)
      | _ =>
        pure (index + name_length,
          append_unrecognized p (name.data ++ [' ']))

/-! ### string_slice splitting (string_slice.c), as used by the parser -/

/-- `string_slice_trim`: drop leading and trailing spaces. -/
def string_slice_trim (s : List Char) : List Char :=
  ((s.dropWhile (fun c => c = ' ')).reverse.dropWhile (fun c => c = ' ')).reverse

/-- The repeated `string_slice_split` loop: tokens between delimiters; the
final token needs no trailing delimiter; a doubled delimiter yields an
empty token.  Fuel decreases once per token. -/
def split_go (d : Char) : Nat → List Char → List (List Char)
  | 0, _ => []
  | _, [] => []
  | fuel + 1, s =>
    let pre := s.takeWhile (fun c => c ≠ d)
    if pre.length = s.length then [s]
    else pre :: split_go d fuel (s.drop (pre.length + 1))

def split_string_slice (s : List Char) (d : Char) : List (List Char) :=
  split_go d (s.length + 1) s

/-- One `string_slice_split` followed by `string_slice_to_string` on both
parts: the part before the first delimiter and the remainder; an empty part
becomes NULL (`none`). -/
def split_first (s : List Char) (d : Char) :
    Option (List Char) × Option (List Char) :=
  let pre := s.takeWhile (fun c => c ≠ d)
  if pre.length = s.length then
    (if s.isEmpty then none else some s, none)
  else
    let post := s.drop (pre.length + 1)
    (if pre.isEmpty then none else some pre,
     if post.isEmpty then none else some post)

/-! ### parse-time preprocessing -/

/-- `concat_argv`: join the argument tokens with single spaces. -/
def concat_argv : List String → List Char
  | [] => []
  | [t] => t.data
  | t :: ts => t.data ++ ' ' :: concat_argv ts

/-- `separate_opt_args`: split the optional-argument ledger into
`"flag,name"` entries and build the flag table: a real flag with the
`"--0"` name placeholder maps to `"--0"`; a `"-0"` flag placeholder with a
real name contributes nothing; otherwise the flag maps to the name.
`none` models the `strncmp(NULL, ...)` the C reaches on a malformed
entry.  The C table (no free function, `data_size = sizeof(char *)`)
stores the name through an 8-byte copy, so a name of 8 or more characters
is truncated and unterminated there; the model keeps the whole name — the
two agree on every name a theorem exercises (at most `"--force"`, 7
characters plus NUL). -/
def separate_opt_args (p : argparser) : Option (hash_table String) := do
  let flags := hash_table_create String
  let toks := split_string_slice (string_slice_trim p.optional_args) ' '
  toks.foldlM
    (fun flags tok => do
      match split_first tok ',' with
      | (some flag, some name) =>
        if ¬ flag.take 2 = ['-', '0'] ∧ name.take 3 = ['-', '-', '0'] then do
          let (_, flags) ← hash_table_insert flags (String.mk flag) "--0"
          pure flags
        else if ¬ name.take 3 = ['-', '-', '0'] ∧ flag.take 2 = ['-', '0'] then
          pure flags
        else do
          let (_, flags) ← hash_table_insert flags (String.mk flag)
            (String.mk name)
          pure flags
      | _ => none)
    flags

/-- `separate_pos_args`: the positional names in registration order. -/
def separate_pos_args (p : argparser) : List String :=
  (split_string_slice (string_slice_trim p.positional_args) ' ').map String.mk

/-! ### print_errors -/

/-- The `"short[/long] "` alias text used in the required-argument
report. -/
def format_arg_name (a : argparser_argument) : List Char :=
  (match a.short_name with | some s => s.data | none => []) ++
  (if a.short_name ≠ none ∧ a.long_name ≠ none then ['/'] else []) ++
  (match a.long_name with | some l => l.data | none => []) ++ [' ']

/-- The loop over required-ledger entries in `print_errors`: for each
`"flag,name"` entry, look the spec up by the flag when the name is the
`"--0"` placeholder and by the name otherwise, and append its alias text
when its bound value is still absent.  `none` models the NULL dereference
when a lookup fails. -/
def req_entries_fold (p : argparser) (toks : List (List Char)) :
    Option (List Char) :=
  toks.foldlM
    (fun acc tok => do
      match split_first tok ',' with
      | (some flag, some name) =>
        let key := if ¬ flag.take 2 = ['-', '0'] ∧ name.take 3 = ['-', '-', '0']
          then flag else name
        let res ← hash_table_search p.arguments (String.mk key)
        match res with
        | (_, some id) =>
          match p.specs.get? id with
          | some a =>
            pure (if a.value = none then acc ++ format_arg_name a else acc)
          | none => none
        | (_, none) => none
      | _ => none)
    []

/-- `print_errors`: the accumulated error messages, then the aggregated
unrecognized line, then the required-argument report.  The required report
is logged on its own ONLY when `current_pos_count` equals the registered
positional count; with fewer positional tokens its text is carried into
the combined missing-positional line; with more it is never logged.
Returns the status and the logged lines in order. -/
def print_errors (p : argparser) (pos_args : List String)
    (current_pos_count : Nat) : Option (Nat × List String) := do
  let error_lines := p.errors.getD []
  let unrecognized_lines :=
    match p.unrecognized_args with
    | some ua => [String.mk ("unrecognized argument(s): ".data ++ ua)]
    | none => ([] : List String)
  let req ←
    match p.req_opt_args with
    | some ledger => do
      let toks := split_string_slice (string_slice_trim ledger) ' '
      let appended ← req_entries_fold p toks
      let sb := "the following argument(s) are required: ".data ++ appended
      pure (if current_pos_count = p.pos_args_size then
              ([String.mk sb], sb)
            else (([] : List String), sb))
    | none => pure (([] : List String), ([] : List Char))
  let pos_lines ←
    if current_pos_count < p.pos_args_size then do
      let sb := if p.req_opt_args = none then
          "the following argument(s) are required: ".data
        else req.2
      let tail ←
        if current_pos_count = 0 then pure p.positional_args
        else
          (List.range (p.pos_args_size - current_pos_count)).foldlM
            (fun acc j =>
              match pos_args.get? (current_pos_count + j) with
              | some nm => some (acc ++ nm.data ++ [' '])
              | none => none)
            ([] : List Char)
      pure [String.mk (sb ++ tail)]
    else pure ([] : List String)
  pure (STATUS_SUCCESS, error_lines ++ unrecognized_lines ++ req.1 ++ pos_lines)

/-! ### the scanning loop -/

/-- The inner `while` loop of the flag branch of `argparser_parse_args`:
four purely textual ambiguity guards (a `"--"` at offset 2 or 3 from the
flag, or a single `'-'` there when the current flag letter is valid), each
recording `"expected one argument"` and breaking; otherwise the flag is
handed to `parse_optional_argument` and the loop re-tests the new cursor.
`concat_str` is fixed at loop entry. -/
def flag_inner_loop (p : argparser) (flags : hash_table String)
    (args_str : List Char) (len : Nat) (concat_str : String) :
    Nat → Nat → Option (Nat × argparser)
  | 0, _ => none
  | fuel + 1, i =>
    if ¬ (cAt args_str i ≠ ' ' ∧ i < len) then some (i, p)
    else if i + 2 < len ∧ cAt args_str (i + 2) = '-' ∧ cAt args_str (i + 3) = '-' then
      some (i + 1,
        add_error_to_argparser p none (some concat_str) "expected one argument")
    else if i + 3 < len ∧ cAt args_str (i + 3) = '-' ∧ cAt args_str (i + 4) = '-' then
      some (i + 1,
        add_error_to_argparser p none (some concat_str) "expected one argument")
    else do
      let g3 ←
        if i + 2 < len ∧ ¬ (cAt args_str (i + 2) = '-' ∧ cAt args_str (i + 3) = '-') ∧
            cAt args_str (i + 2) = '-' then do
          let v ← is_valid_arg_flag p flags (cAt args_str (i + 1))
          pure (v == 0)
        else pure false
      if g3 then
        pure (i + 1,
          add_error_to_argparser p none (some concat_str) "expected one argument")
      else do
        let g4 ←
          if i + 3 < len ∧ ¬ (cAt args_str (i + 3) = '-' ∧ cAt args_str (i + 4) = '-') ∧
              cAt args_str (i + 3) = '-' then do
            let v ← is_valid_arg_flag p flags (cAt args_str (i + 1))
            pure (v == 0)
          else pure false
        if g4 then
          pure (i + 1,
            add_error_to_argparser p none (some concat_str) "expected one argument")
        else do
          let step ←
            if cAt args_str i = '-' then
              parse_optional_argument p args_str arg_kind.opt_flag (i + 1) flags len
            else
              parse_optional_argument p args_str arg_kind.opt_flag i flags len
          flag_inner_loop step.2 flags args_str len concat_str fuel step.1

/-- The outer token loop of `argparser_parse_args`: classify the token at
the cursor as a long name (with the pre-guard recording
`"expected one argument"` when a registered name is followed by a
dash-initial token), a flag token (handled by the inner `while`), or a
positional token (incrementing the positional counter), then advance.
Fuel decreases once per outer iteration. -/
def parse_loop (flags : hash_table String) (pos_args : List String)
    (args_str : List Char) (len : Nat) :
    Nat → argparser → Nat → Nat → Option (argparser × Nat)
  | 0, _, _, _ => none
  | fuel + 1, p, i, current =>
    if len ≤ i then some (p, current)
    else if cAt args_str i = '-' ∧ cAt args_str (i + 1) = '-' then do
      match get_arg_name args_str i with
      | (_, none) => none
      | (_, some name) => do
        let nl := name.length
        let valid ← is_valid_arg_name p name
        if valid = 0 ∧ i + nl + 1 < len ∧ cAt args_str (i + nl + 1) = '-' then
          let p := add_error_to_argparser p (some name) none "expected one argument"
          parse_loop flags pos_args args_str len fuel p (i + nl + 1) current
        else do
          let step ← parse_optional_argument p args_str arg_kind.opt_name i
            flags len
          parse_loop flags pos_args args_str len fuel step.2 (step.1 + 1) current
    else if cAt args_str i = '-' then do
      let concat_str := String.mk ['-', cAt args_str (i + 1)]
      let inner ← flag_inner_loop p flags args_str len concat_str (len + 2) i
      parse_loop flags pos_args args_str len fuel inner.2 (inner.1 + 1) current
    else do
      let step ← parse_positional_argument p args_str i (current + 1) pos_args
      parse_loop flags pos_args args_str len fuel step.2 (step.1 + 1) (current + 1)

/-- `argparser_parse_args`: join the tokens, derive the flag table and the
positional order, scan, and report accumulated diagnostics through
`print_errors` (whose result is discarded).  The returned status is the one
set during setup — `STATUS_SUCCESS` on every complete scan, whatever
diagnostics were accumulated.  Returns (status, final parser, logged
lines). -/
def argparser_parse_args (p : argparser) (argv : List String) :
    Option (Nat × argparser × List String) := do
  let args_str := concat_argv argv
  let flags ← separate_opt_args p
  let pos_args := separate_pos_args p
  let len := args_str.length
  let res ← parse_loop flags pos_args args_str len (len + 2) p 0 0
  let p := res.1
  let current := res.2
  let lines ←
    if p.errors ≠ none ∨ p.unrecognized_args ≠ none ∨
        current < p.pos_args_size ∨ p.req_opt_args ≠ none then do
      let pr ← print_errors p pos_args current
      pure pr.2
    else pure ([] : List String)
  pure ((STATUS_SUCCESS : Nat), p, lines)

/-! ### table invariants and concrete runs used by the claims -/

/-- The slot that `find_entry` stops at, when the probe terminates. -/
def lookup_entry (entries : List (slot α)) (capacity : Nat) (key : String) :
    Option (slot α) :=
  (find_entry entries capacity key).bind (fun i => entries.get? i)

/-- The invariant of the hash tables this program builds without ever
deleting from them (the argument registry and the parse-time flag table):
power-of-two capacity; and either the table is still logically empty (the
next insert re-allocates the entry array), or the entry array is allocated
at full capacity, holds no tombstones, has pairwise distinct keys and a
free slot, `size` counts the occupied slots, and every stored pair is found
by probing for its key. -/
def table_wf (ht : hash_table α) (k : Nat) : Prop :=
  ht.capacity = 2 ^ k ∧ 1 ≤ k ∧
  ((ht.size = 0 ∧ slots_pairs ht.entries = []) ∨
    (ht.entries.length = ht.capacity ∧ no_tombstone ht.entries ∧
     (slots_keys ht.entries).Nodup ∧ ht.size = count_occupied ht.entries ∧
     count_occupied ht.entries < ht.capacity ∧
     ∀ kv ∈ slots_pairs ht.entries,
       lookup_entry ht.entries ht.capacity kv.1 =
         some (slot.occupied kv.1 kv.2)))

/-- C9 run: a fresh GrowArray of 4-byte elements with three elements
pushed. -/
def c9_array : dynamic_array :=
  dynamic_array_add
    (dynamic_array_add
      (dynamic_array_add (dynamic_array_create 4) [1, 0, 0, 0])
      [2, 0, 0, 0])
    [3, 0, 0, 0]

/-- C10 run: insert two keys, delete one, re-insert it (its probe lands on
the tombstone it left behind). -/
def c10_run : Option (hash_table Nat) := do
  let ht := hash_table_create Nat
  let (_, ht) ← hash_table_insert ht "a" 1
  let (_, ht) ← hash_table_insert ht "b" 2
  let (_, ht) ← hash_table_delete ht "a"
  let (_, ht) ← hash_table_insert ht "a" 3
  pure ht

/-- C10 follow-up: additionally delete the other key. -/
def c10_run_after : Option (hash_table Nat) := do
  let ht ← c10_run
  let (_, ht) ← hash_table_delete ht "b"
  pure ht

/-- C8 pre-state: five distinct keys inserted into a fresh table. -/
def c8_pre : Option (hash_table Nat) := do
  let ht := hash_table_create Nat
  let (_, ht) ← hash_table_insert ht "k1" 1
  let (_, ht) ← hash_table_insert ht "k2" 2
  let (_, ht) ← hash_table_insert ht "k3" 3
  let (_, ht) ← hash_table_insert ht "k4" 4
  let (_, ht) ← hash_table_insert ht "k5" 5
  pure ht

/-- C8 run: inserting one of the stored keys again. -/
def c8_run : Option (Nat × hash_table Nat) := do
  let ht ← c8_pre
  hash_table_insert ht "k1" 99

/-- C1 registry: one optional `"--force"` of type Int (Scenario B). -/
def c1_registry : argparser :=
  (do
    let p := argparser_create
    let (_, p) ← argparser_add_argument p none (some "--force")
    let (_, p) ← argparser_add_type_to_arg p "--force" argparser_arg_type.int
    pure p).getD argparser_create

/-- C1 parse result on the failing Scenario B tokens. -/
def c1_result : Nat × argparser × List String :=
  (argparser_parse_args c1_registry ["--force", "notanumber"]).getD
    (7, argparser_create, [])

/-- C3 registry: one optional `"-a"` whose action StoreTrue consumes no
value. -/
def c3_registry : argparser :=
  (do
    let p := argparser_create
    let (_, p) ← argparser_add_argument p (some "-a") none
    let (_, p) ← argparser_add_action_to_arg p "-a"
      argparser_arg_action.store_true
    pure p).getD argparser_create

/-- C4 registry: one optional argument with both a short flag and a long
name. -/
def c4_registry : argparser :=
  (do
    let p := argparser_create
    let (_, p) ← argparser_add_argument p (some "-f") (some "--force")
    pure p).getD argparser_create

/-- C5 registry: one optional `"--force"` with action Store, type
String. -/
def c5_registry : argparser :=
  (do
    let p := argparser_create
    let (_, p) ← argparser_add_argument p none (some "--force")
    pure p).getD argparser_create

/-- C6 registry: one positional `"src"` plus a required optional
`"--force"`. -/
def c6_registry : argparser :=
  (do
    let p := argparser_create
    let (_, p) ← argparser_add_argument p none (some "src")
    let (_, p) ← argparser_add_argument p none (some "--force")
    let (_, p) ← argparser_add_required_to_arg p "--force" true
    pure p).getD argparser_create

/-- The error message `"argument --force: invalid int value: 'notanumber'"`
(the quotes placed by the C format string). -/
def c1_expected_message : String :=
  String.mk ("argument --force: invalid int value: ".data ++ [squote] ++
    "notanumber".data ++ [squote])

/-- A small concrete witness table: two keys stored, slots as the insert
path lays them out. -/
def wit_table : hash_table Nat :=
  (do
    let ht := hash_table_create Nat
    let (_, ht) ← hash_table_insert ht "a" 10
    let (_, ht) ← hash_table_insert ht "b" 20
    pure ht).getD (hash_table_create Nat)

/-- C3 second registry: two short flags `"-a"` and `"-b"`, both with the
default Store action. -/
def c3b_registry : argparser :=
  (do
    let p := argparser_create
    let (_, p) ← argparser_add_argument p (some "-a") none
    let (_, p) ← argparser_add_argument p (some "-b") none
    pure p).getD argparser_create

/-- The parse-time flag table the scanner derives from `c3b_registry`. -/
def c3b_flags : hash_table String :=
  (separate_opt_args c3b_registry).getD (hash_table_create String)

/-- A `size`-drifted table, reachable by inserts and deletes alone: five
keys, one deleted and re-inserted over its own tombstone (which skips the
`size++`), then a sixth key.  Six slots are occupied while `size` is 5. -/
def wit_drift : hash_table Nat :=
  (do
    let ht := hash_table_create Nat
    let (_, ht) ← hash_table_insert ht "k1" 1
    let (_, ht) ← hash_table_insert ht "k2" 2
    let (_, ht) ← hash_table_insert ht "k3" 3
    let (_, ht) ← hash_table_insert ht "k4" 4
    let (_, ht) ← hash_table_insert ht "k5" 5
    let (_, ht) ← hash_table_delete ht "k1"
    let (_, ht) ← hash_table_insert ht "k1" 6
    let (_, ht) ← hash_table_insert ht "k6" 7
    pure ht).getD (hash_table_create Nat)

/-! ## Theorems -/

/-- A `"--"`-prefixed string starts with a dash. -/
theorem head_of_starts_dashdash (l : String) (h : starts_dashdash l = true) :
    l.data.head? = some '-' := by
  unfold starts_dashdash at h
  match hl : l.data with
  | [] => rw [hl] at h; simp at h
  | c :: rest =>
    rw [hl] at h
    match rest with
    | [] => simp at h
    | c2 :: rest2 =>
      simp only [List.take, List.cons.injEq, decide_eq_true_eq] at h
      simp [hl, h.1]

/-- C9: the claim that both `get` (`dynamic_array_find`, by-value copy) and
`getRef` (`dynamic_array_find_ref`) return the i-th pushed element fails on
the code: with 4-byte elements, after pushing three elements the by-value
`get` of index 1 returns the third element, because `array->items + index`
advances the `void **` pointer by 8 bytes per index instead of `data_size`;
`getRef` (and `add`, which lays elements out at `data_size` offsets)
return the correct element. -/
theorem C9_get_uses_pointer_stride :
    (dynamic_array_find c9_array 1).2 = some [3, 0, 0, 0] ∧
    (dynamic_array_find_ref c9_array 0).2 = some [1, 0, 0, 0] ∧
    (dynamic_array_find_ref c9_array 1).2 = some [2, 0, 0, 0] ∧
    (dynamic_array_find_ref c9_array 2).2 = some [3, 0, 0, 0] ∧
    (dynamic_array_find c9_array 1).2 ≠ (dynamic_array_find_ref c9_array 1).2 := by
  decide

/-- C10: the stored `size` does not always equal the number of occupied
slots.  Insert `"a"` and `"b"`, delete `"a"` (size 1, tombstone left),
re-insert `"a"`: its probe lands on the tombstone and
`hash_table_insert` skips the `size` increment, leaving size 1 with two
occupied slots.  Deleting `"b"` then drives size to 0 while `"a"` is still
stored, so searching `"a"` reports `STATUS_IS_EMPTY`. -/
theorem C10_size_drifts_on_tombstone_reuse :
    (c10_run.map fun ht => (ht.size, count_occupied ht.entries)) =
      some (1, 2) ∧
    (c10_run_after.map fun ht => (ht.size, slots_keys ht.entries)) =
      some (0, ["a"]) ∧
    (c10_run_after.bind fun ht => hash_table_search ht "a") =
      some (STATUS_IS_EMPTY, none) := by
  decide

/-- C8 counterexample: inserting a key that is already present returns
`STATUS_FAILURE` (value 1) — the `status_codes` enumeration has no value 6
— and, because the load-factor resize runs before the duplicate check, the
capacity can change: after five insertions (capacity 8), re-inserting
`"k1"` returns 1 and leaves the table resized to capacity 16 (size and
stored pairs unchanged). -/
theorem C8_counterexample_status_and_capacity :
    (c8_pre.map fun ht => ht.capacity) = some 8 ∧
    (c8_run.map fun r => (r.1, r.2.capacity, r.2.size)) =
      some (STATUS_FAILURE, 16, 5) ∧
    STATUS_FAILURE ≠ 6 ∧
    (c8_pre.map fun ht => slots_pairs ht.entries) =
      some [("k2", 2), ("k1", 1), ("k4", 4), ("k3", 3), ("k5", 5)] ∧
    (c8_run.map fun r => slots_pairs r.2.entries) =
      some [("k1", 1), ("k2", 2), ("k4", 4), ("k3", 3), ("k5", 5)] ∧
    [("k2", 2), ("k1", 1), ("k4", 4), ("k3", 3), ("k5", 5)].Perm
      [("k1", 1), ("k2", 2), ("k4", 4), ("k3", 3), ("k5", 5)] := by
  refine ⟨by decide, by decide, by decide, by decide, by decide, ?_⟩
  exact List.Perm.swap ("k1", 1) ("k2", 2) [("k4", 4), ("k3", 3), ("k5", 5)]

/-- C2: `determine_argument` classifies exactly by the decision table:
both names absent gives -1 (MissingName); short absent with a long
starting with neither `"--"` nor `"-"` gives 1 (Positional); short absent
with a `"--"` long gives 3 (OptionalByLong); short absent with a
single-dash long gives -4; a present short that is not `'-'` plus one
alphabetic character gives -2 (BadShortName) whatever the long name; a
valid short with no long gives 2 (OptionalByShort); a valid short with a
`"--"` long gives 3; a valid short with a positional-shaped long gives -5
(MixedPositionalOptional). -/
theorem C2_determine_argument_decision_table :
    (determine_argument none none = -1) ∧
    (∀ l : String, ¬ starts_dashdash l → l.data.head? ≠ some '-' →
      determine_argument none (some l) = 1) ∧
    (∀ l : String, starts_dashdash l → determine_argument none (some l) = 3) ∧
    (∀ l : String, ¬ starts_dashdash l → l.data.head? = some '-' →
      determine_argument none (some l) = -4) ∧
    (∀ (s : String) (lo : Option String), ¬ valid_short_name s →
      determine_argument (some s) lo = -2) ∧
    (∀ s : String, valid_short_name s →
      determine_argument (some s) none = 2) ∧
    (∀ s l : String, valid_short_name s → starts_dashdash l →
      determine_argument (some s) (some l) = 3) ∧
    (∀ s l : String, valid_short_name s → l.data.head? ≠ some '-' →
      determine_argument (some s) (some l) = -5) := by
  refine ⟨rfl, ?_, ?_, ?_, ?_, ?_, ?_, ?_⟩
  · intro l h1 h2
    show (if ¬ starts_dashdash l = true ∧ l.data.head? ≠ some '-' then (1 : Int)
      else if starts_dashdash l = true then 3 else -4) = 1
    rw [if_pos ⟨h1, h2⟩]
  · intro l h
    show (if ¬ starts_dashdash l = true ∧ l.data.head? ≠ some '-' then (1 : Int)
      else if starts_dashdash l = true then 3 else -4) = 3
    rw [if_neg (fun hc => hc.1 h), if_pos h]
  · intro l h1 h2
    show (if ¬ starts_dashdash l = true ∧ l.data.head? ≠ some '-' then (1 : Int)
      else if starts_dashdash l = true then 3 else -4) = -4
    rw [if_neg (fun hc => hc.2 h2), if_neg h1]
  · intro s lo h
    match lo with
    | none =>
      show (if ¬ valid_short_name s = true then (-2 : Int) else 2) = -2
      rw [if_pos h]
    | some l =>
      show (if ¬ valid_short_name s = true then (-2 : Int)
        else if starts_dashdash l = true then 3
        else if l.data.head? ≠ some '-' then -5 else -6) = -2
      rw [if_pos h]
  · intro s h
    show (if ¬ valid_short_name s = true then (-2 : Int) else 2) = 2
    rw [if_neg (fun hc => hc h)]
  · intro s l hs hl
    show (if ¬ valid_short_name s = true then (-2 : Int)
      else if starts_dashdash l = true then 3
      else if l.data.head? ≠ some '-' then -5 else -6) = 3
    rw [if_neg (fun hc => hc hs), if_pos hl]
  · intro s l hs hl
    have hsd : ¬ starts_dashdash l = true := fun hc =>
      hl (head_of_starts_dashdash l hc)
    show (if ¬ valid_short_name s = true then (-2 : Int)
      else if starts_dashdash l = true then 3
      else if l.data.head? ≠ some '-' then -5 else -6) = -5
    rw [if_neg (fun hc => hc hs), if_neg hsd, if_pos hl]

/-- C2 witness: the decision table evaluated at the concrete examples the
specification lists. -/
theorem C2_decision_table_witness :
    determine_argument none (some "--name") = 3 ∧
    determine_argument (some "-x") none = 2 ∧
    determine_argument none (some "name") = 1 ∧
    determine_argument (some "-x") (some "name") = -5 ∧
    determine_argument none none = -1 ∧
    determine_argument none (some "-export") = -4 ∧
    determine_argument (some "-ww") (some "www") = -2 ∧
    determine_argument (some "-x") (some "--extra") = 3 := by
  refine ⟨?_, ?_, ?_, ?_, ?_, ?_, ?_, ?_⟩
  · exact C2_determine_argument_decision_table.2.2.1 "--name" (by decide)
  · exact C2_determine_argument_decision_table.2.2.2.2.2.1 "-x" (by decide)
  · exact C2_determine_argument_decision_table.2.1 "name" (by decide) (by decide)
  · exact C2_determine_argument_decision_table.2.2.2.2.2.2.2 "-x" "name"
      (by decide) (by decide)
  · exact C2_determine_argument_decision_table.1
  · exact C2_determine_argument_decision_table.2.2.2.1 "-export" (by decide)
      (by decide)
  · exact C2_determine_argument_decision_table.2.2.2.2.1 "-ww" (some "www")
      (by decide)
  · exact C2_determine_argument_decision_table.2.2.2.2.2.2.1 "-x" "--extra"
      (by decide) (by decide)

/-! ### linear-probing groundwork -/

theorem no_tombstone_cons {e : slot α} {E : List (slot α)} :
    no_tombstone (e :: E) ↔ e ≠ slot.tombstone ∧ no_tombstone E := by
  constructor
  · intro h
    refine ⟨fun hc => h 0 (by simp [hc]), fun i => ?_⟩
    simpa using h (i + 1)
  · intro ⟨h1, h2⟩ i
    match i with
    | 0 => simpa using h1
    | i + 1 => simpa using h2 i

theorem mem_keys_of_get? {E : List (slot α)} {i : Nat} {k : String} {v : α}
    (h : E.get? i = some (slot.occupied k v)) : k ∈ slots_keys E := by
  exact List.mem_filterMap.mpr ⟨slot.occupied k v, List.get?_mem h, rfl⟩

theorem mem_pairs_of_get? {E : List (slot α)} {i : Nat} {k : String} {v : α}
    (h : E.get? i = some (slot.occupied k v)) : (k, v) ∈ slots_pairs E := by
  exact List.mem_filterMap.mpr ⟨slot.occupied k v, List.get?_mem h, rfl⟩

theorem slots_keys_eq_map (E : List (slot α)) :
    slots_keys E = (slots_pairs E).map Prod.fst := by
  induction E with
  | nil => rfl
  | cons e E ih =>
    cases e <;> simp [slots_keys, slots_pairs, List.filterMap_cons] <;>
      simpa [slots_keys, slots_pairs] using ih

theorem no_tombstone_set {E : List (slot α)} {i : Nat} {k : String} {v : α}
    (h : no_tombstone E) : no_tombstone (E.set i (slot.occupied k v)) := by
  intro j
  by_cases hij : i = j
  · subst hij
    by_cases hlt : i < E.length
    · rw [List.get?_set_eq_of_lt _ hlt]
      simp
    · rw [List.get?_eq_none.mpr (by simpa [List.length_set] using Nat.le_of_not_lt hlt)]
      simp
  · rw [List.get?_set_ne _ _ hij]
    exact h j

theorem slots_pairs_set_empty {E : List (slot α)} {k : String} {v : α} :
    ∀ {i : Nat}, E.get? i = some slot.empty →
    (slots_pairs (E.set i (slot.occupied k v))).Perm ((k, v) :: slots_pairs E) := by
  induction E with
  | nil => intro i h; simp at h
  | cons e E ih =>
    intro i h
    match i with
    | 0 =>
      simp only [List.get?] at h
      obtain rfl : e = slot.empty := by injection h
      simp [slots_pairs, List.filterMap_cons]
    | i + 1 =>
      simp only [List.get?] at h
      have hp := ih h
      cases e with
      | empty => simpa [slots_pairs, List.filterMap_cons] using hp
      | tombstone => simpa [slots_pairs, List.filterMap_cons] using hp
      | occupied k2 v2 =>
        simp only [List.set, slots_pairs, List.filterMap_cons]
        refine List.Perm.trans (List.Perm.cons (k2, v2) hp) ?_
        exact List.Perm.swap (k, v) (k2, v2) (slots_pairs E)

theorem count_occupied_cons_occupied (k : String) (v : α) (E : List (slot α)) :
    count_occupied (slot.occupied k v :: E) = count_occupied E + 1 := by
  simp [count_occupied, slots_pairs, List.filterMap_cons]

theorem exists_empty_slot {E : List (slot α)} (hnt : no_tombstone E)
    (hc : count_occupied E < E.length) :
    ∃ q, q < E.length ∧ E.get? q = some slot.empty := by
  induction E with
  | nil => simp at hc
  | cons e E ih =>
    obtain ⟨he, hE⟩ := no_tombstone_cons.mp hnt
    cases e with
    | empty => exact ⟨0, by simp, rfl⟩
    | tombstone => exact absurd rfl he
    | occupied k v =>
      rw [count_occupied_cons_occupied] at hc
      obtain ⟨q, hq, hget⟩ := ih hE (by simpa using Nat.lt_of_succ_lt_succ hc)
      exact ⟨q + 1, by simpa using Nat.succ_lt_succ hq, by simpa using hget⟩

/-! ### find_entry_list on tombstone-free tables -/

theorem fel_empty_of_absent {E : List (slot α)} {k : String}
    (hnt : no_tombstone E) (hk : k ∉ slots_keys E) :
    ∀ (ps : List Nat) (i : Nat), find_entry_list E k ps none = some i →
      E.get? i = some slot.empty := by
  intro ps
  induction ps with
  | nil => intro i h; simp [find_entry_list] at h
  | cons p ps ih =>
    intro i h
    unfold find_entry_list at h
    cases hg : E.get? p with
    | none => rw [hg] at h; exact absurd h (by simp)
    | some s =>
      rw [hg] at h
      cases s with
      | empty =>
        simp only [Option.getD] at h
        obtain rfl : p = i := by injection h
        exact hg
      | tombstone => exact absurd hg (hnt p)
      | occupied k2 v2 =>
        dsimp only at h
        by_cases hkk : k2 = k
        · exact absurd (mem_keys_of_get? (hkk ▸ hg)) hk
        · rw [if_neg hkk] at h
          exact ih i h

theorem fel_isSome_of_empty {E : List (slot α)} {k : String}
    (hnt : no_tombstone E) :
    ∀ ps : List Nat, (∀ q ∈ ps, q < E.length) →
      (∃ q ∈ ps, E.get? q = some slot.empty) →
      (find_entry_list E k ps none).isSome := by
  intro ps
  induction ps with
  | nil => intro _ h; simp at h
  | cons p ps ih =>
    intro hlt ⟨q, hq, hget⟩
    unfold find_entry_list
    cases hg : E.get? p with
    | none =>
      exact absurd (List.get?_eq_none.mp hg)
        (Nat.not_le_of_lt (hlt p (by simp)))
    | some s =>
      cases s with
      | empty => simp
      | tombstone => exact absurd hg (hnt p)
      | occupied k2 v2 =>
        dsimp only
        by_cases hkk : k2 = k
        · simp [hkk]
        · rw [if_neg hkk]
          have hq2 : q ∈ ps := by
            rcases List.mem_cons.mp hq with rfl | h2
            · rw [hg] at hget; exact absurd hget (by simp)
            · exact h2
          exact ih (fun r hr => hlt r (List.mem_cons_of_mem _ hr)) ⟨q, hq2, hget⟩

theorem fel_set_self {E : List (slot α)} {k : String} {i : Nat} {v : α}
    (hnt : no_tombstone E) (hi : E.get? i = some slot.empty) :
    ∀ ps : List Nat, find_entry_list E k ps none = some i →
      find_entry_list (E.set i (slot.occupied k v)) k ps none = some i := by
  intro ps
  induction ps with
  | nil => intro h; simp [find_entry_list] at h
  | cons p ps ih =>
    intro h
    unfold find_entry_list at h ⊢
    cases hg : E.get? p with
    | none => rw [hg] at h; exact absurd h (by simp)
    | some s =>
      rw [hg] at h
      cases s with
      | empty =>
        simp only [Option.getD] at h
        obtain rfl : p = i := by injection h
        rw [List.get?_set_eq_of_lt _ (List.get?_eq_some.mp hi).1]
        simp
      | tombstone => exact absurd hg (hnt p)
      | occupied k2 v2 =>
        dsimp only at h
        by_cases hkk : k2 = k
        · rw [if_pos hkk] at h
          obtain rfl : p = i := by injection h
          rw [hg] at hi
          exact absurd hi (by simp)
        · rw [if_neg hkk] at h
          have hpi : p ≠ i := fun hc => by rw [hc, hi] at hg; cases hg
          rw [List.get?_set_ne _ _ (fun hc => hpi hc.symm)]
          rw [hg]
          dsimp only
          rw [if_neg hkk]
          exact ih h

theorem fel_set_preserve {E : List (slot α)} {k2 : String} {v2 : α} {i2 : Nat}
    {p : Nat} {k : String} {v : α}
    (hnt : no_tombstone E) (hi2 : E.get? i2 = some (slot.occupied k2 v2))
    (hp : E.get? p = some slot.empty) :
    ∀ ps : List Nat, find_entry_list E k2 ps none = some i2 →
      find_entry_list (E.set p (slot.occupied k v)) k2 ps none = some i2 := by
  intro ps
  induction ps with
  | nil => intro h; simp [find_entry_list] at h
  | cons q ps ih =>
    intro h
    unfold find_entry_list at h ⊢
    cases hg : E.get? q with
    | none => rw [hg] at h; exact absurd h (by simp)
    | some s =>
      rw [hg] at h
      cases s with
      | empty =>
        simp only [Option.getD] at h
        obtain rfl : q = i2 := by injection h
        rw [hg] at hi2
        exact absurd hi2 (by simp)
      | tombstone => exact absurd hg (hnt q)
      | occupied k3 v3 =>
        dsimp only at h
        have hqp : q ≠ p := fun hc => by rw [hc, hp] at hg; cases hg
        rw [List.get?_set_ne _ _ (fun hc => hqp hc.symm)]
        rw [hg]
        dsimp only
        by_cases hkk : k3 = k2
        · rw [if_pos hkk] at h ⊢
          exact h
        · rw [if_neg hkk] at h ⊢
          exact ih h

/-! ### the probe sequence -/

theorem probe_from_eq_mod {cap m : Nat} (hm : cap = 2 ^ m) :
    ∀ (fuel idx : Nat), idx < cap →
      probe_from cap idx fuel = (List.range fuel).map (fun j => (idx + j) % cap) := by
  intro fuel
  induction fuel with
  | zero => intro idx _; simp [probe_from]
  | succ fuel ih =>
    intro idx hidx
    have hstep : (idx + 1) &&& (cap - 1) = (idx + 1) % cap := by
      rw [hm]
      exact Nat.and_pow_two_sub_one_eq_mod (idx + 1) m
    have hlt : (idx + 1) % cap < cap :=
      Nat.mod_lt _ (by rw [hm]; exact Nat.pos_pow_of_pos m (by omega))
    unfold probe_from
    rw [hstep, ih ((idx + 1) % cap) hlt]
    rw [List.range_succ_eq_map]
    simp only [List.map_cons, List.map_map]
    refine congrArg₂ List.cons (by simp [Nat.mod_eq_of_lt hidx]) ?_
    refine List.map_congr_left ?_
    intro j _
    simp only [Function.comp]
    rw [Nat.mod_add_mod]
    exact congrArg (fun t => t % cap) (by omega)

theorem mem_probe_from {cap m : Nat} (hm : cap = 2 ^ m) {start : Nat}
    (hs : start < cap) {q : Nat} (hq : q < cap) :
    q ∈ probe_from cap start cap := by
  have hpos : 0 < cap := by rw [hm]; exact Nat.pos_pow_of_pos m (by omega)
  rw [probe_from_eq_mod hm cap start hs]
  refine List.mem_map.mpr ⟨(q + cap - start) % cap, List.mem_range.mpr (Nat.mod_lt _ hpos), ?_⟩
  rw [Nat.add_mod_mod]
  have h2 : start + (q + cap - start) = q + cap := by omega
  rw [h2, Nat.add_mod_right]
  exact Nat.mod_eq_of_lt hq

theorem probe_from_lt {cap m : Nat} (hm : cap = 2 ^ m) {start fuel : Nat}
    (hs : start < cap) :
    ∀ q ∈ probe_from cap start fuel, q < cap := by
  have hpos : 0 < cap := by rw [hm]; exact Nat.pos_pow_of_pos m (by omega)
  rw [probe_from_eq_mod hm fuel start hs]
  intro q hq
  obtain ⟨j, _, rfl⟩ := List.mem_map.mp hq
  exact Nat.mod_lt _ hpos

theorem fnv_start_lt {cap m : Nat} (hm : cap = 2 ^ m) (k : String) :
    fnv1a k &&& (cap - 1) < cap := by
  rw [hm, Nat.and_pow_two_sub_one_eq_mod]
  exact Nat.mod_lt _ (Nat.pos_pow_of_pos m (by omega))

/-! ### find_entry on tombstone-free tables -/

theorem find_entry_empty_of_absent {E : List (slot α)} {cap m : Nat} {k : String}
    (hm : cap = 2 ^ m) (hlen : E.length = cap) (hnt : no_tombstone E)
    (hk : k ∉ slots_keys E) (hroom : count_occupied E < cap) :
    ∃ i, find_entry E cap k = some i ∧ E.get? i = some slot.empty := by
  obtain ⟨q, hqlen, hqget⟩ := exists_empty_slot hnt (by rw [hlen]; exact hroom)
  have hs := fnv_start_lt hm k
  have hsome : (find_entry E cap k).isSome := by
    unfold find_entry
    refine fel_isSome_of_empty hnt _ ?_ ⟨q, ?_, hqget⟩
    · intro r hr
      rw [hlen]
      exact probe_from_lt hm hs r hr
    · exact mem_probe_from hm hs (by rw [← hlen]; exact hqlen)
  obtain ⟨i, hi⟩ := Option.isSome_iff_exists.mp hsome
  exact ⟨i, hi, fel_empty_of_absent hnt hk _ i hi⟩

theorem find_entry_set_self {E : List (slot α)} {cap : Nat} {k : String}
    {i : Nat} {v : α} (hnt : no_tombstone E) (hi : E.get? i = some slot.empty)
    (hfind : find_entry E cap k = some i) :
    find_entry (E.set i (slot.occupied k v)) cap k = some i := by
  unfold find_entry at hfind ⊢
  exact fel_set_self hnt hi _ hfind

theorem find_entry_set_preserve {E : List (slot α)} {cap : Nat} {k2 : String}
    {v2 : α} {i2 p : Nat} {k : String} {v : α}
    (hnt : no_tombstone E) (hi2 : E.get? i2 = some (slot.occupied k2 v2))
    (hp : E.get? p = some slot.empty)
    (hfind : find_entry E cap k2 = some i2) :
    find_entry (E.set p (slot.occupied k v)) cap k2 = some i2 := by
  unfold find_entry at hfind ⊢
  exact fel_set_preserve hnt hi2 hp _ hfind

/-! ### resize correctness -/

theorem slots_pairs_cons_occupied (k : String) (v : α) (E : List (slot α)) :
    slots_pairs (slot.occupied k v :: E) = (k, v) :: slots_pairs E := by
  simp [slots_pairs, List.filterMap_cons]

theorem slots_pairs_cons_empty (E : List (slot α)) :
    slots_pairs (slot.empty :: E) = slots_pairs E := by
  simp [slots_pairs, List.filterMap_cons]

theorem slots_pairs_cons_tombstone (E : List (slot α)) :
    slots_pairs (slot.tombstone :: E) = slots_pairs E := by
  simp [slots_pairs, List.filterMap_cons]

theorem resize_fold_ok {α : Type} {cap2 m : Nat} (hm : cap2 = 2 ^ m) :
    ∀ (l E : List (slot α)) (n : Nat),
      E.length = cap2 → no_tombstone E →
      (slots_keys E ++ slots_keys l).Nodup →
      count_occupied E + count_occupied l < cap2 →
      (∀ kv ∈ slots_pairs E, ∃ i, find_entry E cap2 kv.1 = some i ∧
        E.get? i = some (slot.occupied kv.1 kv.2)) →
      ∃ E2, l.foldl (resize_step cap2) (E, n) = (E2, n + count_occupied l) ∧
        E2.length = cap2 ∧ no_tombstone E2 ∧
        (slots_pairs E2).Perm (slots_pairs E ++ slots_pairs l) ∧
        (∀ kv ∈ slots_pairs E ++ slots_pairs l, ∃ i,
          find_entry E2 cap2 kv.1 = some i ∧
          E2.get? i = some (slot.occupied kv.1 kv.2)) := by
  intro l
  induction l with
  | nil =>
    intro E n hlen hnt _ _ hfw
    refine ⟨E, ?_, hlen, hnt, ?_, ?_⟩
    · simp [count_occupied, slots_pairs]
    · simp [slots_pairs]
    · simpa [slots_pairs] using hfw
  | cons e l ih =>
    intro E n hlen hnt hnd hroom hfw
    cases e with
    | empty =>
      have hstep : resize_step cap2 (E, n) slot.empty = (E, n) := rfl
      rw [List.foldl_cons, hstep]
      have := ih E n hlen hnt (by simpa [slots_keys, List.filterMap_cons] using hnd)
        (by simpa [count_occupied, slots_pairs_cons_empty] using hroom) hfw
      simpa [count_occupied, slots_pairs_cons_empty] using this
    | tombstone =>
      have hstep : resize_step cap2 (E, n) slot.tombstone = (E, n) := rfl
      rw [List.foldl_cons, hstep]
      have := ih E n hlen hnt (by simpa [slots_keys, List.filterMap_cons] using hnd)
        (by simpa [count_occupied, slots_pairs_cons_tombstone] using hroom) hfw
      simpa [count_occupied, slots_pairs_cons_tombstone] using this
    | occupied k v =>
      have hkeys : slots_keys (slot.occupied k v :: l) = k :: slots_keys l := by
        simp [slots_keys, List.filterMap_cons]
      have hcount : count_occupied (slot.occupied k v :: l) = count_occupied l + 1 :=
        count_occupied_cons_occupied k v l
      have hkE : k ∉ slots_keys E := by
        have hd := (List.nodup_append.mp (by rw [hkeys] at hnd; exact hnd)).2.2
        intro hc
        exact hd hc (by simp)
      obtain ⟨i, hfind, hempty⟩ := find_entry_empty_of_absent hm hlen hnt hkE
        (by omega)
      have hstep : resize_step cap2 (E, n) (slot.occupied k v) =
          (E.set i (slot.occupied k v), n + 1) := by
        simp only [resize_step]
        rw [hfind]
      have hilt : i < E.length := (List.get?_eq_some.mp hempty).1
      have hpairs : (slots_pairs (E.set i (slot.occupied k v))).Perm
          ((k, v) :: slots_pairs E) := slots_pairs_set_empty hempty
      have hkeysE2 : (slots_keys (E.set i (slot.occupied k v))).Perm
          (k :: slots_keys E) := by
        rw [slots_keys_eq_map, slots_keys_eq_map]
        exact (hpairs.map Prod.fst)
      have hcount2 : count_occupied (E.set i (slot.occupied k v)) =
          count_occupied E + 1 := by
        unfold count_occupied
        rw [hpairs.length_eq]
        simp
      have hnd_mid : (k :: (slots_keys E ++ slots_keys l)).Nodup := by
        rw [hkeys] at hnd
        exact List.perm_middle.nodup hnd
      have hnd2 : (slots_keys (E.set i (slot.occupied k v)) ++ slots_keys l).Nodup := by
        have h1 : (slots_keys (E.set i (slot.occupied k v)) ++ slots_keys l).Perm
            ((k :: slots_keys E) ++ slots_keys l) := hkeysE2.append_right _
        exact h1.symm.nodup hnd_mid
      have hfw2 : ∀ kv ∈ slots_pairs (E.set i (slot.occupied k v)), ∃ j,
          find_entry (E.set i (slot.occupied k v)) cap2 kv.1 = some j ∧
          (E.set i (slot.occupied k v)).get? j = some (slot.occupied kv.1 kv.2) := by
        intro kv hkv
        rcases List.mem_cons.mp ((hpairs.mem_iff).mp hkv) with h1 | h2
        · obtain rfl : kv = (k, v) := h1
          refine ⟨i, find_entry_set_self hnt hempty hfind, ?_⟩
          rw [List.get?_set_eq_of_lt _ hilt]
        · obtain ⟨j, hfj, hgj⟩ := hfw kv h2
          have hji : j ≠ i := fun hc => by rw [hc, hempty] at hgj; cases hgj
          refine ⟨j, find_entry_set_preserve hnt hgj hempty hfj, ?_⟩
          rw [List.get?_set_ne _ _ (fun hc => hji hc.symm)]
          exact hgj
      obtain ⟨E2, hfold, hlen2, hnt2, hperm2, hfwE2⟩ :=
        ih (E.set i (slot.occupied k v)) (n + 1)
          (by rw [List.length_set]; exact hlen)
          (no_tombstone_set hnt) hnd2
          (by rw [hcount2]; omega)
          hfw2
      refine ⟨E2, ?_, hlen2, hnt2, ?_, ?_⟩
      · rw [List.foldl_cons, hstep, hfold, hcount]
        refine congrArg (fun t => (E2, t)) (by omega)
      · refine hperm2.trans ?_
        have hp1 : (slots_pairs (E.set i (slot.occupied k v)) ++ slots_pairs l).Perm
            ((k, v) :: (slots_pairs E ++ slots_pairs l)) := hpairs.append_right _
        have hp3 : ((k, v) :: (slots_pairs E ++ slots_pairs l)).Perm
            (slots_pairs E ++ ((k, v) :: slots_pairs l)) := List.perm_middle.symm
        rw [slots_pairs_cons_occupied]
        exact hp1.trans hp3
      · intro kv hkv
        refine hfwE2 kv ?_
        have hmem : kv ∈ (k, v) :: (slots_pairs E ++ slots_pairs l) := by
          rw [slots_pairs_cons_occupied] at hkv
          exact List.perm_middle.subset hkv
        rcases List.mem_cons.mp hmem with rfl | hmem2
        · exact List.mem_append_left _ (hpairs.mem_iff.mpr (by simp))
        · rcases List.mem_append.mp hmem2 with hE | hl
          · exact List.mem_append_left _ (hpairs.mem_iff.mpr (List.mem_cons_of_mem _ hE))
          · exact List.mem_append_right _ hl

theorem slots_pairs_replicate_empty (n : Nat) :
    slots_pairs (List.replicate n (slot.empty : slot α)) = [] := by
  induction n with
  | zero => rfl
  | succ n ih => rw [List.replicate_succ, slots_pairs_cons_empty]; exact ih

theorem no_tombstone_replicate_empty (n : Nat) :
    no_tombstone (List.replicate n (slot.empty : slot α)) := by
  intro i h
  have := List.eq_of_mem_replicate (List.get?_mem h)
  cases this

/-- Everything `resize` guarantees: fresh capacity, `size` re-counted to
the number of occupied slots, tombstone-free result, the occupied
key/value pairs preserved up to order, and every moved pair found again by
probing for its key. -/
theorem resize_ok {α : Type} (ht : hash_table α) (cap2 m : Nat)
    (hm : cap2 = 2 ^ m) (hnd : (slots_keys ht.entries).Nodup)
    (hroom : count_occupied ht.entries < cap2) :
    (resize ht cap2).capacity = cap2 ∧
    (resize ht cap2).size = count_occupied ht.entries ∧
    (resize ht cap2).entries.length = cap2 ∧
    no_tombstone (resize ht cap2).entries ∧
    (slots_pairs (resize ht cap2).entries).Perm (slots_pairs ht.entries) ∧
    ∀ kv ∈ slots_pairs ht.entries, ∃ i,
      find_entry (resize ht cap2).entries cap2 kv.1 = some i ∧
      (resize ht cap2).entries.get? i = some (slot.occupied kv.1 kv.2) := by
  have hkeys0 : slots_keys (List.replicate cap2 (slot.empty : slot α)) = [] := by
    rw [slots_keys_eq_map, slots_pairs_replicate_empty]
    rfl
  have hcount0 : count_occupied (List.replicate cap2 (slot.empty : slot α)) = 0 := by
    unfold count_occupied
    rw [slots_pairs_replicate_empty]
    rfl
  obtain ⟨E2, hfold, hlen2, hnt2, hperm2, hfw2⟩ :=
    resize_fold_ok hm ht.entries (List.replicate cap2 slot.empty) 0
      (by simp) (no_tombstone_replicate_empty cap2)
      (by rw [hkeys0]; simpa using hnd)
      (by rw [hcount0]; simpa using hroom)
      (by rw [slots_pairs_replicate_empty]; intro kv hkv; cases hkv)
  have hres : resize ht cap2 =
      { entries := E2, size := count_occupied ht.entries, capacity := cap2 } := by
    unfold resize
    dsimp only
    rw [hfold]
    simp
  rw [hres]
  have hpairs0 : slots_pairs (List.replicate cap2 (slot.empty : slot α)) ++
      slots_pairs ht.entries = slots_pairs ht.entries := by
    rw [slots_pairs_replicate_empty]
    rfl
  rw [hpairs0] at hperm2 hfw2
  exact ⟨rfl, rfl, hlen2, hnt2, hperm2, hfw2⟩

/-- C7: for every table state with pairwise distinct keys (the invariant of
every reachable state) and every fresh capacity that is a power of two with
room for the occupied slots (true at the only call site, which doubles the
capacity under a 0.75 load factor), `resize` rehashes exactly the occupied
slots into the fresh slot array, drops every tombstone, and neither loses
nor duplicates any key: the occupied pairs of the new array are a
permutation of the old ones, and every key stored before the resize is
found by probing afterwards, at a slot holding its value, with the key
occurring exactly once in the new array. -/
theorem C7_resize_preserves_every_key (ht : hash_table α) (cap2 m : Nat)
    (hm : cap2 = 2 ^ m) (hnd : (slots_keys ht.entries).Nodup)
    (hroom : count_occupied ht.entries < cap2) :
    (resize ht cap2).capacity = cap2 ∧
    (resize ht cap2).size = count_occupied ht.entries ∧
    no_tombstone (resize ht cap2).entries ∧
    (slots_pairs (resize ht cap2).entries).Perm (slots_pairs ht.entries) ∧
    ∀ kv ∈ slots_pairs ht.entries, ∃ i,
      find_entry (resize ht cap2).entries cap2 kv.1 = some i ∧
      (resize ht cap2).entries.get? i = some (slot.occupied kv.1 kv.2) ∧
      (slots_keys (resize ht cap2).entries).count kv.1 = 1 := by
  obtain ⟨hcap, hsize, _, hnt, hperm, hfw⟩ := resize_ok ht cap2 m hm hnd hroom
  have hkeysperm : (slots_keys (resize ht cap2).entries).Perm
      (slots_keys ht.entries) := by
    rw [slots_keys_eq_map, slots_keys_eq_map]
    exact hperm.map Prod.fst
  have hnd2 : (slots_keys (resize ht cap2).entries).Nodup :=
    hkeysperm.symm.nodup hnd
  refine ⟨hcap, hsize, hnt, hperm, ?_⟩
  intro kv hkv
  obtain ⟨i, hfi, hgi⟩ := hfw kv hkv
  refine ⟨i, hfi, hgi, ?_⟩
  exact List.count_eq_one_of_mem hnd2 (mem_keys_of_get? hgi)

/-- C7 witness: the resize guarantees evaluated on a concrete two-key
table moved to capacity 16. -/
theorem C7_resize_witness :
    (resize wit_table 16).capacity = 16 ∧
    (slots_pairs (resize wit_table 16).entries).Perm
      (slots_pairs wit_table.entries) :=
  ⟨(C7_resize_preserves_every_key wit_table 16 4 (by decide) (by decide)
      (by decide)).1,
   (C7_resize_preserves_every_key wit_table 16 4 (by decide) (by decide)
      (by decide)).2.2.2.1⟩

/-- C8 (amended): inserting a key that is already present (its probe finds
its occupied slot) fails with `STATUS_FAILURE` — value 1, the generic
failure status; the `status_codes` enumeration of `utils.h` has no
`AlreadyExists` member and no value 6 — and leaves the stored key/value
pairs unchanged.  The table itself is NOT left unchanged in every state:
the load-factor resize runs before the duplicate check, so the capacity
may still double, and the resize recounts `size` to the occupied-slot
total — which changes `size` on a size-drifted table (reachable with
inserts and deletes alone, see the C10 drift). -/
theorem C8_duplicate_insert_returns_failure {α : Type} (ht : hash_table α)
    (m : Nat) (key : String) (v v0 : α)
    (hsz : ht.size ≠ 0)
    (hlen : ht.entries.length = ht.capacity)
    (hcap : ht.capacity = 2 ^ m)
    (hnd : (slots_keys ht.entries).Nodup)
    (hfound : lookup_entry ht.entries ht.capacity key =
      some (slot.occupied key v0)) :
    ∃ ht2, hash_table_insert ht key v = some (STATUS_FAILURE, ht2) ∧
      ht2.size =
        (if load_reached ht.size ht.capacity then
          count_occupied ht.entries
         else ht.size) ∧
      (slots_pairs ht2.entries).Perm (slots_pairs ht.entries) ∧
      ht2.capacity =
        (if load_reached ht.size ht.capacity then ht.capacity * 2
         else ht.capacity) := by
  obtain ⟨idx, hfi, hgi⟩ := Option.bind_eq_some.mp hfound
  unfold hash_table_insert
  dsimp only
  rw [if_neg hsz]
  by_cases hl : load_reached ht.size ht.capacity = true
  · rw [if_pos hl]
    have hroom2 : count_occupied ht.entries < ht.capacity * 2 := by
      have h1 : count_occupied ht.entries ≤ ht.entries.length :=
        List.length_filterMap_le _ _
      have h2 : 0 < ht.capacity := by
        rw [hcap]; exact Nat.pos_pow_of_pos m (by omega)
      omega
    obtain ⟨hcap2, hsize2, hlen2, hnt2, hperm2, hfw2⟩ :=
      resize_ok ht (ht.capacity * 2) (m + 1)
        (by rw [hcap]; ring) hnd hroom2
    obtain ⟨i, hfi2, hgi2⟩ := hfw2 (key, v0) (mem_pairs_of_get? hgi)
    rw [hcap2, hfi2]
    dsimp only
    rw [hgi2]
    refine ⟨resize ht (ht.capacity * 2), rfl, ?_, hperm2,
      by rw [if_pos hl, hcap2]⟩
    rw [if_pos hl]
    exact hsize2
  · rw [if_neg hl, hfi]
    dsimp only
    rw [hgi]
    exact ⟨ht, rfl, by rw [if_neg hl], List.Perm.refl _, by rw [if_neg hl]⟩

/-- C8 witness: the amended statement applied to the size-drifted six-key
table: duplicate-inserting `"k2"` returns 1, keeps every stored pair, yet
the pre-check resize doubles the capacity and recounts `size` from 5 to
the occupied total 6. -/
theorem C8_duplicate_insert_witness :
    ∃ ht2, hash_table_insert wit_drift "k2" (99 : Nat) =
        some (STATUS_FAILURE, ht2) ∧
      ht2.size =
        (if load_reached wit_drift.size wit_drift.capacity then
          count_occupied wit_drift.entries
         else wit_drift.size) ∧
      (slots_pairs ht2.entries).Perm (slots_pairs wit_drift.entries) ∧
      ht2.capacity =
        (if load_reached wit_drift.size wit_drift.capacity then
          wit_drift.capacity * 2
         else wit_drift.capacity) :=
  C8_duplicate_insert_returns_failure wit_drift 3 "k2" 99 2 (by decide)
    (by decide) (by decide) (by decide) (by decide)

/-- C1 counterexample: Scenario B with `["--force", "notanumber"]`
accumulates an `InvalidNumericLiteral` diagnostic, yet
`argparser_parse_args` returns `STATUS_SUCCESS` (0): the return status is
set only during setup and `print_errors` merely prints, so the claimed
"non-zero iff a diagnostic was accumulated" fails in the forward
direction. -/
theorem C1_counterexample_success_with_diagnostics :
    (argparser_parse_args c1_registry ["--force", "notanumber"]).map
        (fun r => (r.1, r.2.1.errors)) =
      some (STATUS_SUCCESS, some [c1_expected_message]) := by
  decide

/-- C1 (amended): the parse call returns non-zero only when setup
(allocation / string building) fails; whenever the scan completes, the
returned status is `STATUS_SUCCESS` regardless of how many diagnostics
(errors, unrecognized tokens, missing positionals, missing required
optionals) were accumulated — they are only printed. -/
theorem C1_parse_status_ignores_diagnostics (p : argparser)
    (argv : List String) (r : Nat × argparser × List String)
    (h : argparser_parse_args p argv = some r) : r.1 = STATUS_SUCCESS := by
  unfold argparser_parse_args at h
  dsimp only at h
  rcases hsep : separate_opt_args p with _ | flags
  · rw [hsep] at h
    cases h
  · rw [hsep] at h
    simp only [Option.some_bind, Option.none_bind, bind] at h
    rcases hloop : parse_loop flags (separate_pos_args p) (concat_argv argv)
        (concat_argv argv).length ((concat_argv argv).length + 2) p 0 0 with _ | res
    · rw [hloop] at h
      cases h
    · rw [hloop] at h
      simp only [Option.some_bind, Option.none_bind] at h
      split at h
      · rcases hpr : print_errors res.1 (separate_pos_args p) res.2 with _ | pr
        · rw [hpr] at h
          cases h
        · rw [hpr] at h
          simp only [Option.some_bind, pure, Option.some.injEq] at h
          rw [← h]
      · simp only [pure, Option.some_bind, Option.some.injEq] at h
        rw [← h]

/-- C1 witness: the amended statement applied to the Scenario B failing
run. -/
theorem C1_parse_status_witness : c1_result.1 = STATUS_SUCCESS :=
  C1_parse_status_ignores_diagnostics c1_registry ["--force", "notanumber"]
    c1_result (by decide)

/-- C3 counterexample: `"-a"` is registered with action StoreTrue, which
consumes no value, yet the scanner records `"expected one argument"` for it
on input `"-a--x"`: the guard fires on the textual shape alone and never
consults the matched spec action (nothing is bound for `"-a"` either).
Second counterexample, for the other guard layer: with `"-a"` and `"-b"`
registered, scanning `"-ab"` hits the in-function guard — the character
after the flag is itself a registered flag — which records the error and
leaves the cursor in place, so the scan never proceeds to value
consumption: it retries the same position forever (`none`). -/
theorem C3_counterexample_guard_ignores_action :
    ((argparser_parse_args c3_registry ["-a--x"]).map
        (fun r => (r.2.1.errors, r.2.1.specs.map (fun a => a.value))) =
      some (some ["argument -a: expected one argument",
                  "argument --x: expected one argument"], [none])) ∧
    ((parse_optional_argument c3b_registry "-ab".data arg_kind.opt_flag 1
        c3b_flags 3).map (fun r => (r.1, r.2.errors)) =
      some (1, some ["argument -a: expected one argument"])) ∧
    argparser_parse_args c3b_registry ["-ab"] = none := by
  decide

/-- Recording an error touches only the error array: flag validity, which
reads the argument table, is unchanged. -/
theorem is_valid_arg_flag_add_error (p : argparser) (flags : hash_table String)
    (sn ln : Option String) (msg : String) (c : Char) :
    is_valid_arg_flag (add_error_to_argparser p sn ln msg) flags c =
      is_valid_arg_flag p flags c := rfl

/-- The in-function guard of `parse_optional_argument` (flag kind): when
the current character and the one after it are both valid flags, the error
is recorded against the current flag and the cursor is returned
UNCHANGED. -/
theorem parse_opt_flag_guard_hit (p : argparser) (flags : hash_table String)
    (args_str : List Char) (index len : Nat) (hj : index + 1 < len)
    (hv1 : is_valid_arg_flag p flags (cAt args_str index) = some 0)
    (hv2 : is_valid_arg_flag p flags (cAt args_str (index + 1)) = some 0) :
    parse_optional_argument p args_str arg_kind.opt_flag index flags len =
      some (index, add_error_to_argparser p none
        (some (String.mk ['-', cAt args_str index])) "expected one argument") := by
  unfold parse_optional_argument
  dsimp only
  rw [if_pos hj, hv1]
  simp only [bind, Option.some_bind]
  rw [if_pos trivial, hv2]
  simp only [Option.some_bind, pure]
  rfl

/-- Because the in-function guard does not advance the cursor, the flag
loop revisits the same position with one more error recorded, for ever:
every fuel bound is exhausted. -/
theorem flag_loop_stuck (flags : hash_table String) (args_str : List Char)
    (len : Nat) (concat_str : String) (i : Nat)
    (hsp : cAt args_str i ≠ ' ') (hlt : i < len) (hnd : cAt args_str i ≠ '-')
    (hd2 : cAt args_str (i + 2) ≠ '-') (hd3 : cAt args_str (i + 3) ≠ '-')
    (hj : i + 1 < len) :
    ∀ (fuel : Nat) (q : argparser),
      is_valid_arg_flag q flags (cAt args_str i) = some 0 →
      is_valid_arg_flag q flags (cAt args_str (i + 1)) = some 0 →
      flag_inner_loop q flags args_str len concat_str fuel i = none := by
  intro fuel
  induction fuel with
  | zero => intro q _ _; rfl
  | succ fuel ih =>
    intro q hv1 hv2
    rw [flag_inner_loop]
    rw [if_neg (by
        simpa using (⟨hsp, hlt⟩ : cAt args_str i ≠ ' ' ∧ i < len)),
      if_neg (fun h => hd2 h.2.1), if_neg (fun h => hd3 h.2.1)]
    simp only [bind]
    rw [if_neg (fun h => hd2 h.2.2)]
    simp only [Option.some_bind, pure]
    rw [if_neg (by simp), if_neg (fun h => hd3 h.2.2)]
    rw [if_neg (by simp), if_neg hnd]
    rw [parse_opt_flag_guard_hit q flags args_str i len hj hv1 hv2]
    simp only [Option.some_bind]
    exact ih (add_error_to_argparser q none
        (some (String.mk ['-', cAt args_str i])) "expected one argument")
      (by rw [is_valid_arg_flag_add_error]; exact hv1)
      (by rw [is_valid_arg_flag_add_error]; exact hv2)

/-- C3 (amended): the ambiguity guard never consults the matched spec or
its action, and it has two layers.  In the scan loop, at an in-loop
position, `"expected one argument"` is recorded and the loop breaks
exactly when `"--"` appears at offset 2 (or 3) from the cursor — for every
parser state — or when a single `'-'` sits there and the CURRENT flag
letter is a valid flag; with a single `'-'` there and an invalid current
flag the loop instead falls through to the dispatch.  In the dispatched
`parse_optional_argument`, a second guard records the error when the
current character and the character immediately after it are BOTH valid
registered flags, and returns the cursor UNCHANGED — so at a steady
position the loop revisits it for ever (every fuel exhausts: the C scan
never terminates) instead of proceeding to value consumption. -/
theorem C3_flag_guard_is_textual (p : argparser) (flags : hash_table String)
    (args_str : List Char) (len : Nat) (concat_str : String) (fuel i : Nat)
    (hin : cAt args_str i ≠ ' ' ∧ i < len) :
    ((i + 2 < len ∧ cAt args_str (i + 2) = '-' ∧ cAt args_str (i + 3) = '-') →
      flag_inner_loop p flags args_str len concat_str (fuel + 1) i =
        some (i + 1, add_error_to_argparser p none (some concat_str)
          "expected one argument")) ∧
    (¬ (i + 2 < len ∧ cAt args_str (i + 2) = '-' ∧ cAt args_str (i + 3) = '-') →
     (i + 3 < len ∧ cAt args_str (i + 3) = '-' ∧ cAt args_str (i + 4) = '-') →
      flag_inner_loop p flags args_str len concat_str (fuel + 1) i =
        some (i + 1, add_error_to_argparser p none (some concat_str)
          "expected one argument")) ∧
    (¬ (i + 2 < len ∧ cAt args_str (i + 2) = '-' ∧ cAt args_str (i + 3) = '-') →
     ¬ (i + 3 < len ∧ cAt args_str (i + 3) = '-' ∧ cAt args_str (i + 4) = '-') →
     (i + 2 < len ∧ ¬ (cAt args_str (i + 2) = '-' ∧ cAt args_str (i + 3) = '-') ∧
       cAt args_str (i + 2) = '-') →
     is_valid_arg_flag p flags (cAt args_str (i + 1)) = some 0 →
      flag_inner_loop p flags args_str len concat_str (fuel + 1) i =
        some (i + 1, add_error_to_argparser p none (some concat_str)
          "expected one argument")) ∧
    (¬ (i + 2 < len ∧ cAt args_str (i + 2) = '-' ∧ cAt args_str (i + 3) = '-') →
     ¬ (i + 3 < len ∧ cAt args_str (i + 3) = '-' ∧ cAt args_str (i + 4) = '-') →
     ¬ (i + 2 < len ∧ ¬ (cAt args_str (i + 2) = '-' ∧ cAt args_str (i + 3) = '-') ∧
       cAt args_str (i + 2) = '-') →
     (i + 3 < len ∧ ¬ (cAt args_str (i + 3) = '-' ∧ cAt args_str (i + 4) = '-') ∧
       cAt args_str (i + 3) = '-') →
     is_valid_arg_flag p flags (cAt args_str (i + 1)) = some 0 →
      flag_inner_loop p flags args_str len concat_str (fuel + 1) i =
        some (i + 1, add_error_to_argparser p none (some concat_str)
          "expected one argument")) ∧
    (¬ (i + 2 < len ∧ cAt args_str (i + 2) = '-' ∧ cAt args_str (i + 3) = '-') →
     ¬ (i + 3 < len ∧ cAt args_str (i + 3) = '-' ∧ cAt args_str (i + 4) = '-') →
     ((i + 2 < len ∧ ¬ (cAt args_str (i + 2) = '-' ∧ cAt args_str (i + 3) = '-') ∧
       cAt args_str (i + 2) = '-') →
       is_valid_arg_flag p flags (cAt args_str (i + 1)) = some 1) →
     ((i + 3 < len ∧ ¬ (cAt args_str (i + 3) = '-' ∧ cAt args_str (i + 4) = '-') ∧
       cAt args_str (i + 3) = '-') →
       is_valid_arg_flag p flags (cAt args_str (i + 1)) = some 1) →
      flag_inner_loop p flags args_str len concat_str (fuel + 1) i =
        (if cAt args_str i = '-' then
          (parse_optional_argument p args_str arg_kind.opt_flag (i + 1) flags
            len).bind
            (fun step =>
              flag_inner_loop step.2 flags args_str len concat_str fuel
                step.1)
         else
          (parse_optional_argument p args_str arg_kind.opt_flag i flags
            len).bind
            (fun step =>
              flag_inner_loop step.2 flags args_str len concat_str fuel
                step.1))) ∧
    (i + 1 < len →
     is_valid_arg_flag p flags (cAt args_str i) = some 0 →
     is_valid_arg_flag p flags (cAt args_str (i + 1)) = some 0 →
      parse_optional_argument p args_str arg_kind.opt_flag i flags len =
        some (i, add_error_to_argparser p none
          (some (String.mk ['-', cAt args_str i]))
          "expected one argument")) ∧
    (cAt args_str i ≠ '-' → cAt args_str (i + 2) ≠ '-' →
     cAt args_str (i + 3) ≠ '-' → i + 1 < len →
     is_valid_arg_flag p flags (cAt args_str i) = some 0 →
     is_valid_arg_flag p flags (cAt args_str (i + 1)) = some 0 →
     ∀ f, flag_inner_loop p flags args_str len concat_str f i = none) := by
  refine ⟨?_, ?_, ?_, ?_, ?_, ?_, ?_⟩
  · intro h1
    rw [flag_inner_loop]
    rw [if_neg (by simpa using hin), if_pos h1]
  · intro h1 h2
    rw [flag_inner_loop]
    rw [if_neg (by simpa using hin), if_neg h1, if_pos h2]
  · intro h1 h2 h3 hv
    rw [flag_inner_loop]
    rw [if_neg (by simpa using hin), if_neg h1, if_neg h2]
    simp only [bind]
    rw [if_pos h3, hv]
    simp
  · intro h1 h2 h3 h4 hv
    rw [flag_inner_loop]
    rw [if_neg (by simpa using hin), if_neg h1, if_neg h2]
    simp only [bind]
    rw [if_neg h3]
    simp only [Option.some_bind, pure]
    rw [if_neg (by simp), if_pos h4, hv]
    simp
  · intro h1 h2 hg3 hg4
    rw [flag_inner_loop]
    rw [if_neg (by simpa using hin), if_neg h1, if_neg h2]
    simp only [bind]
    by_cases t3 : i + 2 < len ∧
        ¬ (cAt args_str (i + 2) = '-' ∧ cAt args_str (i + 3) = '-') ∧
        cAt args_str (i + 2) = '-'
    · rw [if_pos t3, hg3 t3]
      simp only [Option.some_bind, pure]
      rw [if_neg (by simp)]
      by_cases t4 : i + 3 < len ∧
          ¬ (cAt args_str (i + 3) = '-' ∧ cAt args_str (i + 4) = '-') ∧
          cAt args_str (i + 3) = '-'
      · rw [if_pos t4]
        rfl
      · rw [if_neg t4]
        rfl
    · rw [if_neg t3]
      simp only [Option.some_bind, pure]
      rw [if_neg (by simp)]
      by_cases t4 : i + 3 < len ∧
          ¬ (cAt args_str (i + 3) = '-' ∧ cAt args_str (i + 4) = '-') ∧
          cAt args_str (i + 3) = '-'
      · rw [if_pos t4, hg4 t4]
        simp only [Option.some_bind, pure]
        rw [if_neg (by simp)]
      · rw [if_neg t4]
        rfl
  · intro hj hv1 hv2
    exact parse_opt_flag_guard_hit p flags args_str i len hj hv1 hv2
  · intro hnd hd2 hd3 hj hv1 hv2 f
    exact flag_loop_stuck flags args_str len concat_str i hin.1 hin.2 hnd
      hd2 hd3 hj f p hv1 hv2

/-- C3 witness: the first textual guard fired on the concrete scan state of
the `"-a--x"` counterexample; on `"-ab"` with `"-a"` and `"-b"` registered,
the in-function guard fired without advancing the cursor, and the flag
loop exhausted a concrete fuel bound without terminating. -/
theorem C3_flag_guard_witness :
    (flag_inner_loop c3_registry (hash_table_create String) "-a--x".data 5
        "-a" 10 0 =
      some (1, add_error_to_argparser c3_registry none (some "-a")
        "expected one argument")) ∧
    (parse_optional_argument c3b_registry "-ab".data arg_kind.opt_flag 1
        c3b_flags 3 =
      some (1, add_error_to_argparser c3b_registry none (some "-a")
        "expected one argument")) ∧
    flag_inner_loop c3b_registry c3b_flags "-ab".data 3 "-a" 7 1 = none :=
  ⟨(C3_flag_guard_is_textual c3_registry (hash_table_create String)
      "-a--x".data 5 "-a" 9 0 (by decide)).1 (by decide),
   (C3_flag_guard_is_textual c3b_registry c3b_flags "-ab".data 3 "-a" 9 1
      (by decide)).2.2.2.2.2.1 (by decide) (by decide) (by decide),
   (C3_flag_guard_is_textual c3b_registry c3b_flags "-ab".data 3 "-a" 9 1
      (by decide)).2.2.2.2.2.2 (by decide) (by decide) (by decide)
      (by decide) (by decide) (by decide) 7⟩

/-! ### insert and search on well-formed tables -/

/-- Inserting an absent key into a tombstone-free entry array with a free
slot: the probe ends at an empty slot, and overwriting it preserves every
structural component of the table invariant while adding the new pair. -/
theorem insert_core {α : Type} {E : List (slot α)} {cap m : Nat} {k : String}
    (v : α)
    (hm : cap = 2 ^ m) (hlen : E.length = cap) (hnt : no_tombstone E)
    (hnd : (slots_keys E).Nodup) (hk : k ∉ slots_keys E)
    (hroom : count_occupied E < cap)
    (hfw : ∀ kv ∈ slots_pairs E, ∃ i, find_entry E cap kv.1 = some i ∧
      E.get? i = some (slot.occupied kv.1 kv.2)) :
    ∃ i, find_entry E cap k = some i ∧ E.get? i = some slot.empty ∧
      (E.set i (slot.occupied k v)).length = cap ∧
      no_tombstone (E.set i (slot.occupied k v)) ∧
      (slots_pairs (E.set i (slot.occupied k v))).Perm
        ((k, v) :: slots_pairs E) ∧
      (slots_keys (E.set i (slot.occupied k v))).Nodup ∧
      count_occupied (E.set i (slot.occupied k v)) = count_occupied E + 1 ∧
      ∀ kv ∈ slots_pairs (E.set i (slot.occupied k v)), ∃ j,
        find_entry (E.set i (slot.occupied k v)) cap kv.1 = some j ∧
        (E.set i (slot.occupied k v)).get? j =
          some (slot.occupied kv.1 kv.2) := by
  obtain ⟨i, hfi, hgi⟩ := find_entry_empty_of_absent hm hlen hnt hk hroom
  have hilt : i < E.length := by
    rcases Nat.lt_or_ge i E.length with h | h
    · exact h
    · rw [List.get?_eq_none.mpr h] at hgi
      simp at hgi
  have hperm := slots_pairs_set_empty (k := k) (v := v) hgi
  have hkeysperm : (slots_keys (E.set i (slot.occupied k v))).Perm
      (k :: slots_keys E) := by
    rw [slots_keys_eq_map, slots_keys_eq_map]
    simpa using hperm.map Prod.fst
  refine ⟨i, hfi, hgi, by simp [hlen], no_tombstone_set hnt, hperm, ?_, ?_, ?_⟩
  · exact hkeysperm.nodup_iff.mpr (List.nodup_cons.mpr ⟨hk, hnd⟩)
  · have h := hperm.length_eq
    simpa [count_occupied] using h
  · intro kv hkv
    rcases List.mem_cons.mp (hperm.subset hkv) with heq | hmem
    · subst heq
      refine ⟨i, find_entry_set_self hnt hgi hfi, ?_⟩
      rw [List.get?_set_eq_of_lt _ hilt]
    · obtain ⟨j, hfj, hgj⟩ := hfw kv hmem
      have hij : i ≠ j := by
        intro h
        rw [← h, hgi] at hgj
        simp at hgj
      refine ⟨j, find_entry_set_preserve hnt hgj hgi hfj, ?_⟩
      rw [List.get?_set_ne _ _ hij]
      exact hgj

/-- Inserting a key that is not yet stored into a well-formed table
succeeds, grows `size` by one, keeps the table well-formed (with the
doubled exponent exactly when the load factor was reached), and adds the
pair to the stored set. -/
theorem insert_fresh_wf {α : Type} {ht : hash_table α} {m : Nat} {k : String}
    (v : α) (hwf : table_wf ht m) (hk : k ∉ slots_keys ht.entries) :
    ∃ ht2, hash_table_insert ht k v = some (STATUS_SUCCESS, ht2) ∧
      table_wf ht2 (if load_reached ht.size ht.capacity then m + 1 else m) ∧
      ht2.size = ht.size + 1 ∧
      (slots_pairs ht2.entries).Perm ((k, v) :: slots_pairs ht.entries) := by
  obtain ⟨hcap, hm1, hrest⟩ := hwf
  have h2m : 2 ≤ 2 ^ m := by
    calc 2 = 2 ^ 1 := rfl
    _ ≤ 2 ^ m := Nat.pow_le_pow_right (by omega) hm1
  by_cases hsz : ht.size = 0
  · have hpairs0 : slots_pairs ht.entries = [] := by
      rcases hrest with ⟨_, h⟩ | ⟨_, _, _, hsc, _, _⟩
      · exact h
      · have hc : count_occupied ht.entries = 0 := by omega
        exact List.length_eq_zero.mp hc
    have hnotload : ¬ (load_reached ht.size ht.capacity = true) := by
      unfold load_reached
      rw [decide_eq_true_eq, hsz, hcap]
      omega
    rw [if_neg hnotload]
    unfold hash_table_insert
    dsimp only
    rw [if_pos hsz, if_neg hnotload]
    have hkeys0 : slots_keys (List.replicate ht.capacity (slot.empty : slot α)) =
        [] := by
      rw [slots_keys_eq_map, slots_pairs_replicate_empty]
      rfl
    have hcnt0 : count_occupied (List.replicate ht.capacity (slot.empty : slot α)) =
        0 := by
      unfold count_occupied
      rw [slots_pairs_replicate_empty]
      rfl
    obtain ⟨i, hfi, hgi, hlen2, hnt2, hperm2, hnd2, hcnt2, hfw2⟩ :=
      insert_core (E := List.replicate ht.capacity (slot.empty : slot α))
        (m := m) v hcap (by simp) (no_tombstone_replicate_empty _)
        (by rw [hkeys0]; exact List.nodup_nil)
        (by rw [hkeys0]; simp)
        (by rw [hcnt0, hcap]; omega)
        (by intro kv hkv
            rw [slots_pairs_replicate_empty] at hkv
            simp at hkv)
    rw [hfi]
    dsimp only
    rw [hgi]
    refine ⟨_, rfl, ⟨hcap, hm1, Or.inr ⟨hlen2, hnt2, hnd2, ?_, ?_, ?_⟩⟩, ?_, ?_⟩
    · dsimp only
      rw [hsz, hcnt2, hcnt0]
    · dsimp only
      rw [hcnt2, hcnt0, hcap]
      omega
    · intro kv hkv
      obtain ⟨j, hfj, hgj⟩ := hfw2 kv hkv
      unfold lookup_entry
      dsimp only
      rw [hfj]
      simpa using hgj
    · dsimp only
    · dsimp only
      rw [hpairs0]
      rw [slots_pairs_replicate_empty] at hperm2
      exact hperm2
  · rcases hrest with ⟨h0, _⟩ | ⟨hlen, hnt, hnd, hsc, hroom, hfwl⟩
    · exact absurd h0 hsz
    have hfw : ∀ kv ∈ slots_pairs ht.entries, ∃ i,
        find_entry ht.entries ht.capacity kv.1 = some i ∧
        ht.entries.get? i = some (slot.occupied kv.1 kv.2) := by
      intro kv hkv
      have h := hfwl kv hkv
      unfold lookup_entry at h
      exact Option.bind_eq_some.mp h
    have hcapge : 2 ≤ ht.capacity := by rw [hcap]; exact h2m
    unfold hash_table_insert
    dsimp only
    rw [if_neg hsz]
    by_cases hl : load_reached ht.size ht.capacity = true
    · rw [if_pos hl]
      have hroom2 : count_occupied ht.entries < ht.capacity * 2 := by omega
      obtain ⟨hcap2, hsize2, hlen2, hnt2, hperm2, hfw2⟩ :=
        resize_ok ht (ht.capacity * 2) (m + 1) (by rw [hcap]; ring) hnd hroom2
      have hkeysR : (slots_keys (resize ht (ht.capacity * 2)).entries).Perm
          (slots_keys ht.entries) := by
        rw [slots_keys_eq_map, slots_keys_eq_map]
        exact hperm2.map Prod.fst
      have hkR : k ∉ slots_keys (resize ht (ht.capacity * 2)).entries := by
        intro hmem
        exact hk (hkeysR.mem_iff.mp hmem)
      have hcntR : count_occupied (resize ht (ht.capacity * 2)).entries =
          count_occupied ht.entries := by
        unfold count_occupied
        exact hperm2.length_eq
      obtain ⟨i, hfi, hgi, hlen3, hnt3, hperm3, hnd3, hcnt3, hfw3⟩ :=
        insert_core (E := (resize ht (ht.capacity * 2)).entries)
          (m := m + 1) v (by rw [hcap]; ring) hlen2 hnt2
          (hkeysR.nodup_iff.mpr hnd) hkR (by rw [hcntR]; omega)
          (fun kv hkv => hfw2 kv (hperm2.subset hkv))
      rw [hcap2, hfi]
      dsimp only
      rw [hgi]
      refine ⟨_, rfl,
        ⟨by dsimp only; rw [if_pos hl, hcap]; ring, by rw [if_pos hl]; omega,
         Or.inr ⟨by dsimp only; exact hlen3, hnt3, hnd3,
           ?_, ?_, ?_⟩⟩, ?_, ?_⟩
      · dsimp only
        rw [hsize2, hcnt3, hcntR]
      · dsimp only
        rw [hcnt3, hcntR]
        omega
      · intro kv hkv
        obtain ⟨j, hfj, hgj⟩ := hfw3 kv hkv
        unfold lookup_entry
        dsimp only
        rw [hfj]
        simpa using hgj
      · dsimp only
        rw [hsize2, hsc]
      · dsimp only
        exact hperm3.trans (hperm2.cons (k, v))
    · rw [if_neg hl]
      have hlt : 4 * (ht.size + 1) < 3 * ht.capacity := by
        unfold load_reached at hl
        rw [decide_eq_true_eq] at hl
        omega
      obtain ⟨i, hfi, hgi, hlen3, hnt3, hperm3, hnd3, hcnt3, hfw3⟩ :=
        insert_core (E := ht.entries) (m := m) v hcap hlen hnt hnd hk hroom hfw
      rw [hfi]
      dsimp only
      rw [hgi]
      refine ⟨_, rfl,
        ⟨by dsimp only; rw [if_neg hl]; exact hcap, by rw [if_neg hl]; exact hm1,
         Or.inr ⟨by dsimp only; exact hlen3, hnt3, hnd3, ?_, ?_, ?_⟩⟩, ?_, ?_⟩
      · dsimp only
        rw [hcnt3]
        omega
      · dsimp only
        rw [hcnt3]
        omega
      · intro kv hkv
        obtain ⟨j, hfj, hgj⟩ := hfw3 kv hkv
        unfold lookup_entry
        dsimp only
        rw [hfj]
        simpa using hgj
      · dsimp only
      · dsimp only
        exact hperm3

/-- Searching a well-formed table for a stored key returns its value. -/
theorem hash_table_search_found {α : Type} {ht : hash_table α} {m : Nat}
    {k : String} {v : α} (hwf : table_wf ht m) (hklen : k.length ≠ 0)
    (hkv : (k, v) ∈ slots_pairs ht.entries) :
    hash_table_search ht k = some (STATUS_SUCCESS, some v) := by
  obtain ⟨hcap, hm1, hrest⟩ := hwf
  rcases hrest with ⟨hsz0, hp0⟩ | ⟨hlen, hnt, hnd, hsc, hroom, hfwl⟩
  · rw [hp0] at hkv
    simp at hkv
  · have hpos : 0 < (slots_pairs ht.entries).length :=
      List.length_pos.mpr (List.ne_nil_of_mem hkv)
    have hsz : ht.size ≠ 0 := by
      unfold count_occupied at hsc
      omega
    unfold hash_table_search
    rw [if_neg hsz, if_neg hklen]
    have h := hfwl (k, v) hkv
    unfold lookup_entry at h
    obtain ⟨i, hfi, hgi⟩ := Option.bind_eq_some.mp h
    rw [hfi]
    dsimp only
    rw [hgi]

/-- Searching a well-formed non-empty table for an absent key reports
`STATUS_FAILURE` with no value. -/
theorem hash_table_search_absent {α : Type} {ht : hash_table α} {m : Nat}
    {k : String} (hwf : table_wf ht m) (hsz : ht.size ≠ 0)
    (hk : k ∉ slots_keys ht.entries) :
    hash_table_search ht k = some (STATUS_FAILURE, none) := by
  obtain ⟨hcap, hm1, hrest⟩ := hwf
  rcases hrest with ⟨hsz0, _⟩ | ⟨hlen, hnt, hnd, hsc, hroom, _⟩
  · exact absurd hsz0 hsz
  · unfold hash_table_search
    rw [if_neg hsz]
    by_cases hklen : k.length = 0
    · rw [if_pos hklen]
    · rw [if_neg hklen]
      obtain ⟨i, hfi, hgi⟩ := find_entry_empty_of_absent hcap hlen hnt hk hroom
      rw [hfi]
      dsimp only
      rw [hgi]

/-- C4 counterexample: registering the pair `"-f"` / `"--force"` allocates
one shared record carrying both names, but keys it in the table under the
long name only: searching `"--force"` finds the record (id 0), searching
`"-f"` reports `STATUS_FAILURE`, and the short flag survives only as text
in the `optional_args` ledger. -/
theorem C4_counterexample_short_key_not_mapped :
    hash_table_search c4_registry.arguments "--force" =
      some (STATUS_SUCCESS, some 0) ∧
    hash_table_search c4_registry.arguments "-f" =
      some (STATUS_FAILURE, none) ∧
    (c4_registry.specs.map fun a => (a.short_name, a.long_name)) =
      [(some "-f", some "--force")] ∧
    c4_registry.optional_args = "-f,--force ".data := by
  decide

/-- C4 (amended): a registration carrying both a valid short flag and a
`"--"` long name allocates ONE shared spec record that wears both names,
but inserts it into the key table under the LONG key only: afterwards the
long name resolves to the new record's id, while searching the short flag
reports `STATUS_FAILURE` — the short flag is recorded only as text, next
to the long name, in the `optional_args` ledger. -/
theorem C4_registration_keys_long_only (p : argparser) (m : Nat)
    (s l : String) (hwf : table_wf p.arguments m)
    (hs : valid_short_name s = true) (hl : starts_dashdash l = true)
    (habs : l ∉ slots_keys p.arguments.entries)
    (hsabs : s ∉ slots_keys p.arguments.entries) (hsl : s ≠ l) :
    ∃ p2, argparser_add_argument p (some s) (some l) =
        some (((STATUS_SUCCESS : Nat) : Int), p2) ∧
      hash_table_search p2.arguments l =
        some (STATUS_SUCCESS, some p.specs.length) ∧
      hash_table_search p2.arguments s = some (STATUS_FAILURE, none) ∧
      (p2.specs.get? p.specs.length).map
          (fun a => (a.short_name, a.long_name)) = some (some s, some l) ∧
      p2.optional_args =
        p.optional_args ++ s.data ++ [','] ++ l.data ++ [' '] := by
  have hllen : l.length ≠ 0 := by
    intro h
    have hnil : l.data = [] := List.length_eq_zero.mp h
    unfold starts_dashdash at hl
    rw [hnil] at hl
    simp at hl
  have hkind : determine_argument (some s) (some l) = 3 := by
    unfold determine_argument
    dsimp only
    rw [if_neg (fun hc => hc hs), if_pos hl]
  obtain ⟨sr, hsr, hsrne⟩ :
      ∃ r, hash_table_search p.arguments l = some (r, none) ∧ r ≠ 0 := by
    by_cases hsz : p.arguments.size = 0
    · refine ⟨STATUS_IS_EMPTY, ?_, by decide⟩
      unfold hash_table_search
      rw [if_pos hsz]
    · exact ⟨STATUS_FAILURE, hash_table_search_absent hwf hsz habs, by decide⟩
  obtain ⟨ht2, hins, hwf2, hsize2, hperm2⟩ :=
    insert_fresh_wf (k := l) p.specs.length hwf habs
  have hkeys2 : (slots_keys ht2.entries).Perm
      (l :: slots_keys p.arguments.entries) := by
    rw [slots_keys_eq_map, slots_keys_eq_map]
    simpa using hperm2.map Prod.fst
  have hs2 : s ∉ slots_keys ht2.entries := by
    intro hmem
    rcases List.mem_cons.mp (hkeys2.mem_iff.mp hmem) with h | h
    · exact hsl h
    · exact hsabs h
  have hsz2 : ht2.size ≠ 0 := by omega
  unfold argparser_add_argument
  dsimp only
  rw [hkind]
  rw [if_neg (show ¬ ((3 : Int) = 1) by decide),
    if_neg (show ¬ ((3 : Int) = 2) by decide),
    if_pos (show (3 : Int) = 3 from rfl)]
  dsimp only [Option.getD]
  rw [hsr]
  simp only [bind, Option.some_bind]
  dsimp only
  rw [if_neg hsrne]
  dsimp only [arg_create]
  rw [hins]
  simp only [bind, Option.some_bind]
  refine ⟨_, rfl, ?_, ?_, ?_, ?_⟩
  · exact hash_table_search_found hwf2 hllen
      (hperm2.mem_iff.mpr (List.mem_cons_self _ _))
  · exact hash_table_search_absent hwf2 hsz2 hs2
  · dsimp only
    rw [List.get?_concat_length]
    rfl
  · dsimp only
    simp [List.append_assoc]

/-- C4 witness: the amended statement applied to a fresh parser and the
concrete pair `"-f"` / `"--force"`. -/
theorem C4_registration_witness :
    ∃ p2, argparser_add_argument argparser_create (some "-f") (some "--force") =
        some (((STATUS_SUCCESS : Nat) : Int), p2) ∧
      hash_table_search p2.arguments "--force" =
        some (STATUS_SUCCESS, some 0) ∧
      hash_table_search p2.arguments "-f" = some (STATUS_FAILURE, none) := by
  obtain ⟨p2, h1, h2, h3, h4, h5⟩ :=
    C4_registration_keys_long_only argparser_create 3 "-f" "--force"
      ⟨rfl, by omega, Or.inl ⟨rfl, rfl⟩⟩ (by decide) (by decide) (by decide)
      (by decide) (by decide)
  exact ⟨p2, h1, h2, h3⟩

/-- C5 counterexample: `"--force"` (action Store, type String).  With
tokens `["--force", "x"]` the value `"x"` is bound.  Re-scanning with a
trailing empty token (`["--force", "x", "--force", ""]`) records
`"expected one argument"` — but still runs the conversion on the empty
run, REPLACING the previously bound `"x"` with an absent value instead of
leaving the binding alone.  And with `["--force", "a", "--force", "", "b"]`
the empty run sits before a double space, so NO diagnostic is recorded at
all (the check is end-of-input, not run-emptiness), yet the binding is
still wiped. -/
theorem C5_counterexample_empty_run_still_converted :
    (argparser_parse_args c5_registry ["--force", "x"]).map
        (fun r => (r.2.1.errors, r.2.1.specs.map fun a => a.value)) =
      some (none, [some (bound_value.string_value "x")]) ∧
    (argparser_parse_args c5_registry ["--force", "x", "--force", ""]).map
        (fun r => (r.2.1.errors, r.2.1.specs.map fun a => a.value)) =
      some (some ["argument --force: expected one argument"], [none]) ∧
    (argparser_parse_args c5_registry ["--force", "a", "--force", "", "b"]).map
        (fun r => (r.2.1.errors, r.2.1.specs.map fun a => a.value)) =
      some (none, [none]) := by
  decide

/-- C5 (amended): value consumption for a matched Store spec.  The scan
skips at most one separating space and takes the run of non-space
characters; `"expected one argument"` is recorded exactly when the cursor
is then at the END of the input (an empty run in mid-string records
nothing); the conversion then runs regardless of that diagnostic.  String
replaces the binding with the run, binding NOTHING when the run is empty —
a previously bound value is lost, not kept.  Int converts a nonempty run
with the `strtol(str, NULL, 10)` range and shape checks and the
`"numerical result is out of range"` / `"invalid int value: ..."`
messages, leaving the binding alone on failure.  Float runs the same
two-diagnostic selection through `strtod`, whose full input grammar
(hexadecimal, infinity / nan, the exact `DBL_MAX` boundary) is outside
this model, so no conclusion is stated for a nonempty Float run.  An empty
run hands `strtol` / `strtod` a NULL pointer (undefined behaviour,
modelled `none`).  Bool has NO conversion case: nothing is bound, no
diagnostic is recorded, and no boolean literal set exists. -/
theorem C5_store_value_consumption (p : argparser) (id : Nat)
    (args_str : List Char) (index i2 : Nat) (run : List Char)
    (arg : argparser_argument)
    (hid : p.specs.get? id = some arg)
    (ha : arg.action = argparser_arg_action.store)
    (hI : i2 = if cAt args_str index = ' ' then index + 1 else index)
    (hR : run = (args_str.drop i2).takeWhile (fun c => c ≠ ' ')) :
    (arg.type = argparser_arg_type.string →
      validate_argument p id args_str index =
        some (i2 + run.length,
          set_spec
            (if args_str.length ≤ i2 then
              add_error_to_argparser p arg.short_name arg.long_name
                "expected one argument"
             else p) id
            (fun a => { a with value :=
                          if run.isEmpty then none
                          else some (bound_value.string_value
                            (String.mk run)) }))) ∧
    (arg.type = argparser_arg_type.bool →
      validate_argument p id args_str index =
        some (i2 + run.length,
          if args_str.length ≤ i2 then
            add_error_to_argparser p arg.short_name arg.long_name
              "expected one argument"
          else p)) ∧
    ((arg.type = argparser_arg_type.int ∨
      arg.type = argparser_arg_type.float) → run = [] →
      validate_argument p id args_str index = none) ∧
    (arg.type = argparser_arg_type.int → run ≠ [] →
      ∀ (v : Int) (consumed : Nat) (erange : Bool),
        strtol_model run = (v, consumed, erange) →
        validate_argument p id args_str index =
          some (i2 + run.length,
            if erange then
              add_error_to_argparser p arg.short_name arg.long_name
                "numerical result is out of range"
            else if consumed = 0 ∨ consumed < run.length then
              add_error_to_argparser p arg.short_name arg.long_name
                (snprintf50 ("invalid int value: ".data ++ [squote] ++ run ++
                  [squote]))
            else set_spec p id
              (fun a => { a with value := some (bound_value.int_value v) }))) := by
  unfold validate_argument
  rw [hid]
  dsimp only
  rw [ha]
  dsimp only
  rw [← hI, ← hR]
  refine ⟨?_, ?_, ?_, ?_⟩
  · intro ht
    by_cases hE : args_str.length ≤ i2
    · rw [if_pos hE]
      unfold validate_argument_type
      rw [show (add_error_to_argparser p arg.short_name arg.long_name
          "expected one argument").specs.get? id = some arg from hid]
      dsimp only
      rw [ht]
      dsimp only
      by_cases hre : run.isEmpty = true
      · rw [if_pos hre, if_pos hre]
        rfl
      · rw [if_neg hre, if_neg hre]
        rfl
    · rw [if_neg hE]
      unfold validate_argument_type
      rw [hid]
      dsimp only
      rw [ht]
      dsimp only
      by_cases hre : run.isEmpty = true
      · rw [if_pos hre, if_pos hre]
        rfl
      · rw [if_neg hre, if_neg hre]
        rfl
  · intro ht
    by_cases hE : args_str.length ≤ i2
    · rw [if_pos hE]
      unfold validate_argument_type
      rw [show (add_error_to_argparser p arg.short_name arg.long_name
          "expected one argument").specs.get? id = some arg from hid]
      dsimp only
      rw [ht]
    · rw [if_neg hE]
      unfold validate_argument_type
      rw [hid]
      dsimp only
      rw [ht]
  · intro ht hrun
    have hre : run.isEmpty = true := by rw [hrun]; rfl
    rw [if_pos hre]
    by_cases hE : args_str.length ≤ i2
    · rw [if_pos hE]
      unfold validate_argument_type
      rw [show (add_error_to_argparser p arg.short_name arg.long_name
          "expected one argument").specs.get? id = some arg from hid]
      dsimp only
      rcases ht with ht | ht <;> rw [ht]
    · rw [if_neg hE]
      unfold validate_argument_type
      rw [hid]
      dsimp only
      rcases ht with ht | ht <;> rw [ht]
  · intro ht hrn v consumed erange hS
    have hE : ¬ args_str.length ≤ i2 := by
      intro hle
      apply hrn
      rw [hR, List.drop_eq_nil_of_le hle]
      rfl
    have hre : ¬ run.isEmpty = true := by
      simpa using hrn
    rw [if_neg hE, if_neg hre]
    unfold validate_argument_type
    rw [hid]
    dsimp only
    rw [ht]
    dsimp only [String.length]
    rw [hS]
    dsimp only
    by_cases hER : erange = true
    · rw [if_pos hER, if_pos hER]
    · rw [if_neg hER, if_neg hER]
      by_cases hC : consumed = 0 ∨ consumed < run.length
      · rw [if_pos hC, if_pos hC]
      · rw [if_neg hC, if_neg hC]

/-- C5 witness: the Store consumption applied to the registered
`"--force"` spec (type String) on the concrete scan `"--force x"` at the
separating space: one space is skipped, the run `"x"` is read and bound. -/
theorem C5_store_witness :
    validate_argument c5_registry 0 "--force x".data 7 =
      some (9, set_spec c5_registry 0
        (fun a => { a with value := some (bound_value.string_value "x") })) := by
  have h := (C5_store_value_consumption c5_registry 0 "--force x".data 7 8
      ['x']
      { action := argparser_arg_action.store
        choices := none
        const_value := none
        default_value := none
        dest := none
        help := none
        long_name := some "--force"
        metavar := none
        nargs := none
        short_name := none
        value := none
        deprecated := false
        required := false
        type := argparser_arg_type.string }
      (by decide) (by decide) (by decide) (by decide)).1 (by decide)
  exact h

/-- The missing-positional tail built by `print_errors` succeeds whenever
the positional-name list is long enough. -/
theorem pos_tail_fold_some (pos_args : List String) (c : Nat) :
    ∀ (n : Nat) (acc : List Char), c + n ≤ pos_args.length →
    ∃ tail, (List.range n).foldlM
      (fun acc j =>
        match pos_args.get? (c + j) with
        | some nm => some (acc ++ nm.data ++ [' '])
        | none => none) acc = some tail := by
  intro n
  induction n with
  | zero => intro acc h; exact ⟨acc, rfl⟩
  | succ n ih =>
    intro acc h
    obtain ⟨tail, htail⟩ := ih acc (by omega)
    rw [List.range_succ, List.foldlM_append, htail]
    simp only [bind, Option.some_bind]
    cases hg : pos_args.get? (c + n) with
    | none =>
      have := List.get?_eq_none.mp hg
      omega
    | some nm =>
      refine ⟨tail ++ nm.data ++ [' '], ?_⟩
      rw [List.foldlM_cons, hg]
      simp only [bind, Option.some_bind]
      rw [List.foldlM_nil]
      rfl

/-- C6 counterexample: positional `"src"` plus required `"--force"`, which
is never given a value.  With tokens `["a.txt"]` (positional count matches)
the required report is logged on its own.  With `["a.txt", "b.txt"]` the
extra positional makes `current_pos_count` (2) exceed the registered count
(1), and the required report VANISHES — only the unrecognized line is
logged although `"--force"` is still unbound.  With no tokens at all the
required text is merged into the missing-positional line instead of being
logged separately. -/
theorem C6_counterexample_required_line_dropped :
    (argparser_parse_args c6_registry ["a.txt"]).map (fun r => r.2.2) =
      some ["the following argument(s) are required: --force "] ∧
    (argparser_parse_args c6_registry ["a.txt", "b.txt"]).map
        (fun r => (r.2.2, r.2.1.specs.map fun a => a.value)) =
      some (["unrecognized argument(s): b.txt "],
        [some (bound_value.string_value "a.txt"), none]) ∧
    (argparser_parse_args c6_registry []).map (fun r => r.2.2) =
      some ["the following argument(s) are required: --force src "] := by
  decide

/-- C6 (amended): the required-optional report is built from every ledger
entry whose spec still has an absent bound value, but its logging is GATED
on the positional count: it is logged as its own line exactly when
`current_pos_count` equals the registered positional count; with fewer
positional tokens its text is only carried as the prefix of the combined
missing-positional line; and with MORE positional tokens than registered
it is not logged at all. -/
theorem C6_required_report_gated (p : argparser) (pos_args : List String)
    (current : Nat) (ledger appended : List Char)
    (hled : p.req_opt_args = some ledger)
    (hfold : req_entries_fold p
      (split_string_slice (string_slice_trim ledger) ' ') = some appended)
    (hlen : p.pos_args_size ≤ pos_args.length) :
    (current = p.pos_args_size →
      print_errors p pos_args current =
        some (STATUS_SUCCESS,
          p.errors.getD [] ++
          (match p.unrecognized_args with
           | some ua => [String.mk ("unrecognized argument(s): ".data ++ ua)]
           | none => []) ++
          [String.mk ("the following argument(s) are required: ".data ++
            appended)])) ∧
    (p.pos_args_size < current →
      print_errors p pos_args current =
        some (STATUS_SUCCESS,
          p.errors.getD [] ++
          (match p.unrecognized_args with
           | some ua => [String.mk ("unrecognized argument(s): ".data ++ ua)]
           | none => []))) ∧
    (current < p.pos_args_size →
      ∃ tail, print_errors p pos_args current =
        some (STATUS_SUCCESS,
          p.errors.getD [] ++
          (match p.unrecognized_args with
           | some ua => [String.mk ("unrecognized argument(s): ".data ++ ua)]
           | none => []) ++
          [String.mk ("the following argument(s) are required: ".data ++
            appended ++ tail)])) := by
  unfold print_errors
  rw [hled]
  dsimp only
  rw [hfold]
  simp only [bind, Option.some_bind, pure]
  refine ⟨?_, ?_, ?_⟩
  · intro hc
    rw [if_pos hc, if_neg (show ¬ current < p.pos_args_size by omega)]
    simp
  · intro hc
    rw [if_neg (show ¬ current = p.pos_args_size by omega),
      if_neg (show ¬ current < p.pos_args_size by omega)]
    simp
  · intro hc
    rw [if_neg (show ¬ current = p.pos_args_size by omega), if_pos hc]
    rw [if_neg (show ¬ (some ledger = none) by simp)]
    by_cases hc0 : current = 0
    · rw [if_pos hc0]
      exact ⟨p.positional_args, by simp [List.append_assoc]⟩
    · rw [if_neg hc0]
      obtain ⟨tail, htail⟩ :=
        pos_tail_fold_some pos_args current (p.pos_args_size - current)
          ([] : List Char) (by omega)
      rw [htail]
      simp only [Option.some_bind]
      exact ⟨tail, by simp [List.append_assoc]⟩

/-- C6 witness: the gated report applied to the concrete registry with
positional `"src"` and required, unbound `"--force"`, at the matching
positional count. -/
theorem C6_required_witness :
    print_errors c6_registry ["src"] 1 =
      some (STATUS_SUCCESS,
        ["the following argument(s) are required: --force "]) := by
  have h := (C6_required_report_gated c6_registry ["src"] 1 "-0,--force ".data
      "--force ".data (by decide) (by decide) (by decide)).1 (by decide)
  exact h
